import Mathlib

/-!
Verification development for the Chicago civic-records platform
(document normalization, multi-signal relevance ranking, corpus store,
and templated response composition).

Python strings are modelled as `List Char` (`Str`); Python `dict`s keyed by
strings are modelled as association lists; Python `set`s of strings enter the
code only through cardinalities and membership tests, and are modelled by
deduplicated lists; Python floats `0.4`, `0.3`, ... are modelled as rationals;
`list.sort(key=..., reverse=True)` (a stable descending sort) is modelled by a
stable descending insertion sort; a Python exception escaping a handler is
modelled with `Except`/an error constructor.
-/

/-! ## Python string and container primitives -/

/-- Python strings, modelled as lists of characters. -/
abbrev Str := List Char

/-- Coerce a Lean string literal into the `Str` model. -/
def str (s : String) : Str := s.data

/-- Python `str.lower` on one character (ASCII case folding). -/
def lowerChar (c : Char) : Char := c.toLower

/-- Python `str.lower`. -/
def lowerStr (s : Str) : Str := s.map lowerChar

/-- Whitespace test used by Python `str.split()` and `str.strip()`. -/
def isWs (c : Char) : Bool := c = ' ' || c = '\t' || c = '\n' || c = '\r'

/-- Helper for `pySplit`: accumulates the current (reversed) word. -/
def splitWsAux : Str → Str → List Str
  | [], cur => if cur = [] then [] else [cur.reverse]
  | c :: cs, cur =>
    if isWs c then
      (if cur = [] then [] else [cur.reverse]) ++ splitWsAux cs []
    else
      splitWsAux cs (c :: cur)

/-- Python `str.split()` with no argument: split on whitespace runs,
discarding empty words. -/
def pySplit (s : Str) : List Str := splitWsAux s []

/-- Whether the first string is a leading segment of the second. -/
def isLeadingSegment : Str → Str → Bool
  | [], _ => true
  | _ :: _, [] => false
  | a :: as, b :: bs => a = b && isLeadingSegment as bs

/-- Python `needle in hay` on strings: substring containment. -/
def pyIn (needle hay : Str) : Bool :=
  match hay with
  | [] => needle = []
  | _ :: t => isLeadingSegment needle hay || pyIn needle t

/-- Python `str.strip()`: drop leading and trailing whitespace. -/
def pyStrip (s : Str) : Str :=
  ((s.dropWhile isWs).reverse.dropWhile isWs).reverse

/-- Python `min` on two numbers. -/
def pyMin (a b : ℚ) : ℚ := if a ≤ b then a else b

/-- Lookup in a Python dict modelled as an association list. -/
def dictLookup {α : Type} : List (Str × α) → Str → Option α
  | [], _ => none
  | (k', v) :: rest, k => if k' = k then some v else dictLookup rest k

/-- Python `d.get(k, default)`. -/
def dictGetD {α : Type} (m : List (Str × α)) (k : Str) (d : α) : α :=
  (dictLookup m k).getD d

/-- Python `d[k] = v` on a dict modelled as an association list: overwrite the
entry in place when the key is present, append it otherwise. -/
def dictInsert {α : Type} (m : List (Str × α)) (k : Str) (v : α) : List (Str × α) :=
  if (dictLookup m k).isSome then
    m.map (fun p => if p.1 = k then (k, v) else p)
  else
    m ++ [(k, v)]

/-! ## Stable descending sort

In Python, `list.sort` with a key and reverse=True sorts descending and is
stable (elements with equal keys keep their original relative order).  A
output of a stable sort is uniquely determined by the comparator and the input
order, so we model it with a stable descending insertion sort. -/

/-- Insert `x` in front of the first element whose key is `≤ key x`
(so `x` precedes every equal-keyed element already present, which entered the
list earlier in the original order than `x` never does — see `sortDesc`). -/
def insertDesc {α : Type} (key : α → ℚ) (x : α) : List α → List α
  | [] => [x]
  | y :: ys => if key y ≤ key x then x :: y :: ys else y :: insertDesc key x ys

/-- Stable descending insertion sort, modelling
`list.sort(key=..., reverse=True)`. -/
def sortDesc {α : Type} (key : α → ℚ) : List α → List α
  | [] => []
  | x :: xs => insertDesc key x (sortDesc key xs)

/-! ## Data model of `ChicagoLegislationService`

The canonical document produced by `_process_legislation_item`.  `metadata`
holds the source-specific auxiliary fields; its values are modelled already
stringified (the ranker only ever reads them through `str(...)`). -/

structure LegDoc where
  document_id : Str
  title : Str
  content : Str
  document_type : Str
  category : Str
  jurisdiction : Str
  authority : Str
  url : Str
  effective_date : Str
  metadata : List (Str × Str)
  deriving DecidableEq

/-- A per-result copy of a stored document, annotated by the ranker with
`similarity_score` and `match_reasons` (`doc_copy` in the source). -/
structure ScoredLegDoc where
  doc : LegDoc
  similarity_score : ℚ
  match_reasons : List Str

/-- The process-wide mutable state of the service: the corpus
(`self.documents`, a dict keyed by `document_id`) and the chat history. -/
structure ChatTurn where
  role : Str
  message : Str

structure ServiceState where
  documents : List (Str × LegDoc)
  chat_history : List ChatTurn

/-! ## The weighted ranker `advanced_semantic_search` -/

/-- Models `set(query.lower().split())` — modelled as a deduplicated token list
(only cardinality, membership and existential tests are ever taken). -/
def queryWordsOf (query : Str) : List Str := (pySplit (lowerStr query)).dedup

/-- Models `str(metadata.get(key, ""))` for a metadata field of a document. -/
def metaField (d : LegDoc) (key : Str) : Str := dictGetD d.metadata key []

/-- Models `len(query_words.intersection(title_words))` where
`title_words = set(doc["title"].lower().split())`. -/
def titleOverlap (qw : List Str) (d : LegDoc) : Nat :=
  (qw.filter (fun w => w ∈ pySplit (lowerStr d.title))).length

/-- Models `sum(1 for word in query_words if word in content_lower)`. -/
def contentMatches (qw : List Str) (d : LegDoc) : Nat :=
  (qw.filter (fun w => pyIn w (lowerStr d.content))).length

/-- Models `any(word in str(metadata.get("matter_category", "")).lower() for word in query_words)`. -/
def categoryHit (qw : List Str) (d : LegDoc) : Bool :=
  qw.any (fun w => pyIn w (lowerStr (metaField d (str "matter_category"))))

/-- Models `any(word in str(metadata.get("sponsor", "")).lower() for word in query_words)`. -/
def sponsorHit (qw : List Str) (d : LegDoc) : Bool :=
  qw.any (fun w => pyIn w (lowerStr (metaField d (str "sponsor"))))

/-- The score accumulation of `advanced_semantic_search` (before the final
`min(score, 1.0)` clamp applied to returned copies). -/
def advScore (qw : List Str) (d : LegDoc) : ℚ :=
  let n : ℚ := qw.length
  let score : ℚ := 0
  let score := if titleOverlap qw d > 0 then score + 0.4 * (titleOverlap qw d / n) else score
  let score := if contentMatches qw d > 0 then score + 0.3 * (contentMatches qw d / n) else score
  let score := if categoryHit qw d then score + 0.2 else score
  let score := if sponsorHit qw d then score + 0.1 else score
  score

/-- Models `_get_match_reasons`: the ordered list of human-readable labels. -/
def getMatchReasons (qw : List Str) (d : LegDoc) : List Str :=
  (if (qw.filter (fun w => w ∈ pySplit (lowerStr d.title))) ≠ [] then [str "Title match"] else []) ++
  (if qw.any (fun w => pyIn w (lowerStr d.content)) then [str "Content match"] else []) ++
  (if categoryHit qw d then [str "Category match"] else []) ++
  (if sponsorHit qw d then [str "Sponsor match"] else [])

/-- The jurisdiction/category filters at the top of the ranker loop
(`if jurisdiction and doc["jurisdiction"] != jurisdiction: continue`, and
likewise for `category`; a present-but-empty filter string is falsy). -/
def passesFilters (jurisdiction category : Option Str) (d : LegDoc) : Bool :=
  !(match jurisdiction with
    | none => false
    | some j => j ≠ [] && d.jurisdiction ≠ j) &&
  !(match category with
    | none => false
    | some c => c ≠ [] && d.category ≠ c)

/-- One iteration of the ranker loop body: `None` models `continue`/no append,
`some` models appending the annotated copy `doc_copy` to `results`. -/
def scoreDoc (qw : List Str) (jurisdiction category : Option Str) (d : LegDoc) :
    Option ScoredLegDoc :=
  if passesFilters jurisdiction category d then
    let score := advScore qw d
    if score > 0 then some ⟨d, pyMin score 1, getMatchReasons qw d⟩ else none
  else none

/-- Models `advanced_semantic_search(query, jurisdiction, category, limit)` over the
corpus: score every stored document, keep strictly positive scores, sort by
`similarity_score` descending (stable) and truncate to `limit`. -/
def advancedSemanticSearch (documents : List (Str × LegDoc)) (query : Str)
    (jurisdiction category : Option Str) (limit : Nat) : List ScoredLegDoc :=
  let qw := queryWordsOf query
  (sortDesc (fun r => r.similarity_score)
    (documents.filterMap (fun p => scoreDoc qw jurisdiction category p.2))).take limit

/-- The ranker loop with the service state threaded through explicitly:
each iteration appends (at most) one annotated copy to the local `results`
list and leaves the document store untouched (the source only ever writes to
`doc_copy`, never to `self.documents`). -/
def advSearchLoop (qw : List Str) (jurisdiction category : Option Str) :
    List (Str × LegDoc) → List ScoredLegDoc × List (Str × LegDoc) →
    List ScoredLegDoc × List (Str × LegDoc)
  | [], acc => acc
  | p :: rest, (results, docs) =>
    advSearchLoop qw jurisdiction category rest
      (match scoreDoc qw jurisdiction category p.2 with
       | some r => (results ++ [r], docs)
       | none => (results, docs))

/-- Models `advanced_semantic_search` as a state transformer on the whole service
state: returns the ranked results together with the post-call state. -/
def advancedSemanticSearchS (st : ServiceState) (query : Str)
    (jurisdiction category : Option Str) (limit : Nat) :
    List ScoredLegDoc × ServiceState :=
  let qw := queryWordsOf query
  let (results, docs) := advSearchLoop qw jurisdiction category st.documents ([], st.documents)
  ((sortDesc (fun r => r.similarity_score) results).take limit,
   { st with documents := docs })

/-! ## `_map_category_to_system` -/

/-- The rule-based category classifier: a fixed if/elif chain of
case-insensitive substring tests, first match wins, default `"general"`. -/
def mapCategoryToSystem (category matter_type : Str) : Str :=
  let category_lower := lowerStr category
  let type_lower := lowerStr matter_type
  if pyIn (str "zoning") category_lower || pyIn (str "building") category_lower then
    str "construction"
  else if pyIn (str "business") category_lower || pyIn (str "license") category_lower then
    str "business"
  else if pyIn (str "health") category_lower || pyIn (str "food") category_lower then
    str "healthcare"
  else if pyIn (str "parking") category_lower || pyIn (str "traffic") category_lower ||
      pyIn (str "transportation") category_lower then
    str "transportation"
  else if pyIn (str "finance") category_lower || pyIn (str "budget") category_lower then
    str "finance"
  else if pyIn (str "public safety") category_lower || pyIn (str "police") category_lower ||
      pyIn (str "fire") category_lower then
    str "public_safety"
  else if pyIn (str "education") category_lower || pyIn (str "school") category_lower then
    str "education"
  else if pyIn (str "environment") category_lower || pyIn (str "sustainability") category_lower then
    str "environment"
  else if pyIn (str "housing") category_lower || pyIn (str "residential") category_lower then
    str "housing"
  else if pyIn (str "executive order") type_lower || pyIn (str "proclamation") type_lower then
    str "governance"
  else if pyIn (str "resolution") type_lower then
    str "governance"
  else if pyIn (str "ordinance") type_lower then
    str "governance"
  else
    str "general"

/-! ## `_extract_keywords`

The regex findall of the pattern backslash-b [a-zA-Z]{3,} backslash-b over
`content.lower()` matches exactly the
maximal alphabetic runs of length at least 3 that are not immediately
preceded or followed by another word character (`\b` requires a word/non-word
boundary; digits and `_` are word characters, so an alphabetic run flanked by
them — as in `"abc1"` — produces no match at all). -/

/-- Python `\w` (word character), restricted to ASCII. -/
def wordChar (c : Char) : Bool := c.isAlphanum || c = '_'

/-- Tokenizer state: emitted tokens, the current (reversed) alphabetic run,
and whether the character immediately preceding the current run position is a
word character. -/
structure TokState where
  toks : List Str
  run : Str
  prevW : Bool

/-- One step of the `\b[a-zA-Z]{3,}\b` scanner. -/
def tokStep (st : TokState) (c : Char) : TokState :=
  if c.isAlpha then { st with run := c :: st.run }
  else
    { toks := st.toks ++
        (if 3 ≤ st.run.length && !st.prevW && !wordChar c then [st.run.reverse] else []),
      run := [],
      prevW := wordChar c }

/-- Models the regex findall of the word-token pattern over `s`. -/
def findallWordTokens (s : Str) : List Str :=
  let st := s.foldl tokStep ⟨[], [], false⟩
  st.toks ++ (if 3 ≤ st.run.length && !st.prevW then [st.run.reverse] else [])

/-- One step of the word-frequency dict: `word_freq[word] = word_freq.get(word, 0) + 1`
(increment in place when the word is present, append `(word, 1)` otherwise,
preserving dict insertion order). -/
def bump : List (Str × Nat) → Str → List (Str × Nat)
  | [], w => [(w, 1)]
  | (x, k) :: rest, w => if x = w then (x, k + 1) :: rest else (x, k) :: bump rest w

/-- The word-frequency dict of `_extract_keywords`, in insertion
(first-seen) order. -/
def wordFreq (toks : List Str) : List (Str × Nat) := toks.foldl bump []

/-- Models `_extract_keywords(content)`: tokenize `content.lower()`, count, sort by
count descending (stable), return the top 10 `(word, count)` pairs. -/
def extractKeywords (content : Str) : List (Str × Nat) :=
  (sortDesc (fun p => (p.2 : ℚ)) (wordFreq (findallWordTokens (lowerStr content)))).take 10

/-! ## Ingestion (`ingest_comprehensive_legislation` storage loop)

Each fetched document is enhanced in place (`summary`, `keywords`,
`content_hash` — fields not read by any ranking or storage decision) and then
stored with `self.documents[doc_data["document_id"]] = doc_data`. -/

/-- Store one document in the corpus dict, keyed by its `document_id`. -/
def storeDoc (m : List (Str × LegDoc)) (d : LegDoc) : List (Str × LegDoc) :=
  dictInsert m d.document_id d

/-- The ingestion storage loop over a batch of fetched documents. -/
def ingestDocs (m : List (Str × LegDoc)) (batch : List LegDoc) : List (Str × LegDoc) :=
  batch.foldl storeDoc m

/-! ## Response composer (`generate_legislation_chat_response`) -/

/-- A candidate document handed to the composer; `similarity_score` and
`match_reasons` may be absent (the source reads them with `.get` defaults). -/
structure ChatCandidate where
  doc : LegDoc
  similarity_score : Option ℚ
  match_reasons : Option (List Str)

/-- One `sources` entry echoed for a candidate used as context. -/
structure SourceEntry where
  title : Str
  authority : Str
  url : Str
  category : Str
  similarity_score : ℚ
  match_reasons : List Str

/-- The structured answer object of the composer.  The wall-clock fields
(`search_timestamp`) are not modelled; `jurisdiction` and `model` are the
constants `"chicago"` and `"chicago-legislation-based"`. -/
structure ChatResponse where
  answer : Str
  sources : List SourceEntry
  confidence_score : ℚ
  jurisdiction : Str
  model : Str
  context_used : Nat
  total_documents_searched : Nat

/-- Models the metadata read with default N/A as used by the
response templates. -/
def metaFieldNA (d : LegDoc) (key : Str) : Str := dictGetD d.metadata key (str "N/A")

/-- Models `_generate_legislation_response`: intent detection by fixed keyword tests
on the lowercased message, in a fixed priority order, each branch rendering a
multi-field template from the metadata of the best document. -/
def generateLegislationResponse (user_message : Str) (best_doc : LegDoc) : Str :=
  let m := lowerStr user_message
  let header := fun (kind : Str) =>
    str "Based on Chicago " ++ kind ++ str " legislation \u0027" ++ best_doc.title ++
      str "\u0027:\n\n"
  let line := fun (label value : Str) => str "- " ++ label ++ str ": " ++ value ++ str "\n"
  let commonLines :=
    line (str "Record Number") (metaFieldNA best_doc (str "record_number")) ++
    line (str "Type") (metaFieldNA best_doc (str "matter_type")) ++
    line (str "Status") (metaFieldNA best_doc (str "status")) ++
    line (str "Sponsor") (metaFieldNA best_doc (str "sponsor"))
  if pyIn (str "zoning") m then
    header (str "zoning") ++ str "**Zoning Information:**\n" ++ commonLines ++
    line (str "Committee") (metaFieldNA best_doc (str "committee_referral")) ++
    str "\n**Next Steps:**\nFor zoning matters in Chicago:\n" ++
    str "1. Contact the Committee on Zoning, Landmarks and Building Standards\n" ++
    str "2. Review the full legislation text\n3. Check for public hearing requirements\n" ++
    str "4. Consult with the Department of Planning and Development\n\n" ++
    str "For more information, visit the Chicago City Clerk\u0027s office or the Department of Planning and Development."
  else if pyIn (str "business") m || pyIn (str "license") m then
    header (str "business") ++ str "**Business Information:**\n" ++ commonLines ++
    line (str "Category") (metaFieldNA best_doc (str "matter_category")) ++
    str "\n**Requirements:**\nFor business matters in Chicago:\n" ++
    str "1. Contact the Department of Business Affairs and Consumer Protection\n" ++
    str "2. Review all applicable regulations\n3. Complete required applications\n" ++
    str "4. Pay necessary fees\n\n" ++
    str "Contact the Chicago Department of Business Affairs and Consumer Protection at 312-744-6060 for assistance."
  else if pyIn (str "parking") m || pyIn (str "traffic") m then
    header (str "transportation") ++ str "**Transportation Information:**\n" ++ commonLines ++
    line (str "Committee") (metaFieldNA best_doc (str "committee_referral")) ++
    str "\n**Requirements:**\nFor transportation matters in Chicago:\n" ++
    str "1. Contact the Committee on Pedestrian and Traffic Safety\n" ++
    str "2. Review traffic and parking regulations\n3. Check for permit requirements\n" ++
    str "4. Consult with the Department of Transportation\n\n" ++
    str "Contact the Chicago Department of Transportation for more information."
  else
    str "Based on Chicago legislation \u0027" ++ best_doc.title ++ str "\u0027:\n\n" ++
    str "**Legislation Details:**\n" ++ commonLines ++
    line (str "Committee") (metaFieldNA best_doc (str "committee_referral")) ++
    line (str "Introduction Date") (metaFieldNA best_doc (str "introduction_date")) ++
    str "\n**Content:**\n" ++ best_doc.content.take 300 ++ str "...\n\n" ++
    str "**Source Information:**\n" ++
    line (str "Authority") best_doc.authority ++
    line (str "Category") best_doc.category ++
    line (str "Document Type") best_doc.document_type ++
    str "\nFor more detailed information, please contact the relevant Chicago department or visit the official Chicago government website."

/-- The fixed apology answer used when no candidate documents are available. -/
def apologyAnswer : Str :=
  str "I\u0027m sorry, I couldn\u0027t find specific Chicago legislation related to your query."

/-- One `sources` entry for a candidate (`.get` defaults `0.0` for the score
and `[]` for the reasons). -/
def mkSourceEntry (c : ChatCandidate) : SourceEntry :=
  { title := c.doc.title
    authority := c.doc.authority
    url := c.doc.url
    category := c.doc.category
    similarity_score := c.similarity_score.getD 0
    match_reasons := c.match_reasons.getD [] }

/-- Models `generate_legislation_chat_response(user_message, recommended_documents)`:
appends the user turn, composes the answer (the fixed apology with confidence
`0.0` when there are no candidates, otherwise a template rendered from the
top candidate with confidence `best_doc.get("similarity_score", 0.5)`),
records the `sources` audit list, and appends the AI turn. -/
def generateLegislationChatResponse (st : ServiceState) (user_message : Str)
    (recommended : List ChatCandidate) : ChatResponse × ServiceState :=
  let hist := st.chat_history ++ [⟨str "user", user_message⟩]
  let sources := recommended.map mkSourceEntry
  let answerConfidence : Str × ℚ :=
    match recommended with
    | [] => (apologyAnswer, 0)
    | best :: _ =>
      (generateLegislationResponse user_message best.doc, best.similarity_score.getD 0.5)
  let response : ChatResponse :=
    { answer := answerConfidence.1
      sources := sources
      confidence_score := answerConfidence.2
      jurisdiction := str "chicago"
      model := str "chicago-legislation-based"
      context_used := recommended.length
      total_documents_searched := st.documents.length }
  (response, { st with chat_history := hist ++ [⟨str "ai", answerConfidence.1⟩] })

/-! ## The legislation server endpoints (`chicago_legislation_server.py`) -/

/-- A handler outcome: a successful payload or an `HTTPException` with its
status code (`400` client error, `404` not found, `500` internal error). -/
inductive HResp (α : Type) where
  | ok (a : α)
  | err (status : Nat)
  deriving DecidableEq

/-- The `/api/v1/search/semantic` handler of the legislation server: a blank
query (falsy after `.strip()`) is rejected with `400` before the ranker runs;
otherwise the results of the ranker are returned. -/
def legSearchEndpoint (st : ServiceState) (query : Str)
    (jurisdiction category : Option Str) (limit : Nat) : HResp (List ScoredLegDoc) :=
  if pyStrip query = [] then .err 400
  else .ok (advancedSemanticSearch st.documents query jurisdiction category limit)

/-- The `/api/v1/chat/ask` handler of the legislation server: a blank message
is rejected with `400` before any search or composition happens; otherwise the
ranker (when `use_context`) feeds the composer. -/
def legChatEndpoint (st : ServiceState) (user_message : Str) (use_context : Bool)
    (max_context_docs : Nat) : HResp (ChatResponse × ServiceState) :=
  if pyStrip user_message = [] then .err 400
  else
    let recommended :=
      if use_context then
        (advancedSemanticSearch st.documents user_message (some (str "chicago")) none
          max_context_docs).map (fun r => ChatCandidate.mk r.doc (some r.similarity_score)
            (some r.match_reasons))
      else []
    .ok (generateLegislationChatResponse st user_message recommended)

/-! ## The real-data server (`real_chicago_api_server.py`) -/

/-- A document of the global store of the real-data server. -/
structure RDoc where
  document_id : Str
  title : Str
  content : Str
  document_type : Str
  category : Str
  jurisdiction : Str
  authority : Str
  url : Str
  effective_date : Str
  source : Str
  deriving DecidableEq

/-- A result copy annotated with `similarity_score` by
`simple_similarity_search`. -/
structure RScoredDoc where
  doc : RDoc
  similarity_score : ℚ

/-- The token-set intersection score of `simple_similarity_search` before
clamping: `(content_matches * 0.7 + title_matches * 1.5) / len(query_words)`.
Evaluated only when `query_words` is non-empty (otherwise the source raises
`ZeroDivisionError`; see `simpleLoop`). -/
def simpleScore (qw : List Str) (d : RDoc) : ℚ :=
  let content_matches : ℚ := (qw.filter (fun w => w ∈ pySplit (lowerStr d.content))).length
  let title_matches : ℚ := (qw.filter (fun w => w ∈ pySplit (lowerStr d.title))).length
  (content_matches * 0.7 + title_matches * 1.5) / qw.length

/-- The scoring loop of `simple_similarity_search`.  Each iteration divides by
`len(query_words)`; with an empty query-word set the first iteration raises
`ZeroDivisionError`, modelled as `Except.error ()`. -/
def simpleLoop (qw : List Str) : List (Str × RDoc) → Except Unit (List RScoredDoc)
  | [] => .ok []
  | p :: rest =>
    if qw.length = 0 then .error ()
    else
      (simpleLoop qw rest).map (fun acc =>
        (if simpleScore qw p.2 > 0 then [⟨p.2, pyMin (simpleScore qw p.2) 1⟩] else []) ++ acc)

/-- Models `simple_similarity_search(query, top_k)` over the global document store:
score every document, keep strictly positive scores, sort descending by
score (stable) and truncate to `top_k`. -/
def simpleSimilaritySearch (documents : List (Str × RDoc)) (query : Str) (top_k : Nat) :
    Except Unit (List RScoredDoc) :=
  let qw := (pySplit (lowerStr query)).dedup
  (simpleLoop qw documents).map (fun scored =>
    (sortDesc (fun r => r.similarity_score) scored).take top_k)

/-- Models `classify_document_simple(text)`. -/
def classifyDocumentSimple (text : Str) : Str :=
  let text_lower := lowerStr text
  if [str "building", str "construction", str "permit", str "contractor",
      str "violation"].any (fun w => pyIn w text_lower) then str "construction"
  else if [str "business", str "license", str "company",
      str "enterprise"].any (fun w => pyIn w text_lower) then str "business"
  else if [str "council", str "meeting", str "governance",
      str "city"].any (fun w => pyIn w text_lower) then str "governance"
  else if [str "food", str "inspection", str "restaurant",
      str "health"].any (fun w => pyIn w text_lower) then str "healthcare"
  else str "general"

/-- The `/api/v1/search/semantic` handler of the real-data server.  There is
no blank-query guard: the query goes straight to `simple_similarity_search`;
any exception (in particular the `ZeroDivisionError` on a tokenless query over
a non-empty store) is caught by the blanket `except` and surfaced as `500`.
Results are then optionally filtered by category (a present-but-empty category
is falsy and skips the filter) and re-classified. -/
def realSemanticSearchEndpoint (documents : List (Str × RDoc)) (query : Str)
    (top_k : Nat) (category : Option Str) : HResp (List RScoredDoc) :=
  match simpleSimilaritySearch documents query top_k with
  | .error _ => .err 500
  | .ok results =>
    let results : List RScoredDoc :=
      match category with
      | some c => if c ≠ [] then results.filter (fun (r : RScoredDoc) => r.doc.category = c)
                  else results
      | none => results
    .ok (results.map (fun (r : RScoredDoc) =>
      { r with doc := { r.doc with
          category := classifyDocumentSimple r.doc.content,
          jurisdiction := str "chicago" } }))

/-- Models `generate_simple_answer(question, relevant_docs)`. -/
def generateSimpleAnswer (question : Str) (relevant_docs : List RScoredDoc) : Str :=
  match relevant_docs with
  | [] =>
    str "I don\u0027t have specific Chicago legal documents to answer your question about \u0027" ++
      question ++
      str "\u0027. Please try rephrasing your question or search for more specific terms."
  | top_doc :: _ =>
    let content := top_doc.doc.content
    let title := top_doc.doc.title
    let authority := top_doc.doc.authority
    let question_lower := lowerStr question
    let basedOn := str "Based on the real Chicago document \u0027" ++ title ++
      str "\u0027 from the " ++ authority ++ str ": " ++ content.take 200 ++ str "... "
    let accordingTo := str "According to the real Chicago data \u0027" ++ title ++
      str "\u0027 from the " ++ authority ++ str ": " ++ content.take 200 ++ str "... "
    let basedOnData := str "Based on the real Chicago data \u0027" ++ title ++
      str "\u0027 from the " ++ authority ++ str ": " ++ content.take 200 ++ str "... "
    if [str "how", str "process", str "procedure",
        str "steps"].any (fun w => pyIn w question_lower) then
      basedOn ++ str "To proceed, you should contact the " ++ authority ++
        str " directly or visit their website for the complete process and requirements."
    else if [str "what", str "requirements", str "need",
        str "required"].any (fun w => pyIn w question_lower) then
      accordingTo ++ str "This document outlines the specific requirements and regulations for " ++
        top_doc.doc.category ++ str " in Chicago."
    else if [str "when", str "time", str "deadline",
        str "schedule"].any (fun w => pyIn w question_lower) then
      basedOnData ++ str "The document specifies timing requirements and deadlines for " ++
        top_doc.doc.category ++ str " in Chicago."
    else if [str "where", str "location", str "office",
        str "contact"].any (fun w => pyIn w question_lower) then
      accordingTo ++ str "For more information about locations and contact details, you should visit the " ++
        authority ++ str " website or contact them directly."
    else if [str "cost", str "fee", str "price",
        str "charge"].any (fun w => pyIn w question_lower) then
      basedOnData ++ str "This document contains information about fees and costs associated with " ++
        top_doc.doc.category ++ str " in Chicago."
    else
      basedOnData ++ str "This information relates to " ++ top_doc.doc.category ++
        str " and may help answer your question about Chicago legal matters."

/-- The chat answer object of the real-data server. -/
structure RChatResponse where
  answer : Str
  sources : List SourceEntry
  confidence_score : ℚ
  jurisdiction : Str
  model : Str
  context_used : Nat

/-- The `/api/v1/chat/ask` handler of the real-data server.  Again no
blank-message guard: with `use_context` the message goes straight to
`simple_similarity_search` (top 3), whose `ZeroDivisionError` on a tokenless
message over a non-empty store becomes a `500`. -/
def realAskQuestionEndpoint (documents : List (Str × RDoc)) (message : Str)
    (use_context : Bool) : HResp RChatResponse :=
  let relevant : Except Unit (List RScoredDoc) :=
    if use_context then simpleSimilaritySearch documents message 3 else .ok []
  match relevant with
  | .error _ => .err 500
  | .ok relevant_docs =>
    let answer := generateSimpleAnswer message relevant_docs
    let confidence_score :=
      match relevant_docs with
      | [] => 0.3
      | top :: _ => pyMin (top.similarity_score + 0.2) 1
    let sources := (relevant_docs.take 3).map (fun d =>
      { title := d.doc.title
        authority := d.doc.authority
        url := d.doc.url
        category := d.doc.category
        similarity_score := d.similarity_score
        match_reasons := [] : SourceEntry })
    .ok { answer := answer
          sources := sources
          confidence_score := confidence_score
          jurisdiction := str "chicago"
          model := str "real-chicago-data-based"
          context_used := relevant_docs.length }

/-! ## Claim-side formulas

These definitions follow the words of the specification (not the source) and are
compared against the embedded code. -/

/-- The weighted-ranker score formula exactly as the specification words it:
title term, content term, metadata bonuses, summed and clamped to `1.0`.
The metadata bonuses here test the query words against the *stringified*
metadata fields with no case folding, which is the literal reading of the
spec sentence (the sentence mentions lower-casing only for the content). -/
def claimScoreAsWritten (query : Str) (d : LegDoc) : ℚ :=
  let qw := queryWordsOf query
  let n : ℚ := qw.length
  pyMin ((if 0 < titleOverlap qw d then 0.4 * (titleOverlap qw d / n) else 0) +
    (if 0 < contentMatches qw d then 0.3 * (contentMatches qw d / n) else 0) +
    (if qw.any (fun w => pyIn w (metaField d (str "matter_category"))) then 0.2 else 0) +
    (if qw.any (fun w => pyIn w (metaField d (str "sponsor"))) then 0.1 else 0)) 1

/-- The weighted-ranker score formula as amended: identical to
`claimScoreAsWritten` except that the metadata bonuses compare the query
words against the lower-cased stringified metadata fields, as the code does. -/
def claimScoreAmended (query : Str) (d : LegDoc) : ℚ :=
  let qw := queryWordsOf query
  let n : ℚ := qw.length
  pyMin ((if 0 < titleOverlap qw d then 0.4 * (titleOverlap qw d / n) else 0) +
    (if 0 < contentMatches qw d then 0.3 * (contentMatches qw d / n) else 0) +
    (if categoryHit qw d then 0.2 else 0) +
    (if sponsorHit qw d then 0.1 else 0)) 1

/-- The per-signal score contributions paired with their human labels, in the
fixed ranker order (used to state the `match_reasons` claim). -/
def signalContributions (qw : List Str) (d : LegDoc) : List (Str × ℚ) :=
  [(str "Title match",
      if 0 < titleOverlap qw d then 0.4 * ((titleOverlap qw d : ℚ) / qw.length) else 0),
   (str "Content match",
      if 0 < contentMatches qw d then 0.3 * ((contentMatches qw d : ℚ) / qw.length) else 0),
   (str "Category match", if categoryHit qw d then 0.2 else 0),
   (str "Sponsor match", if sponsorHit qw d then 0.1 else 0)]

/-! ## Lemmas about the stable descending sort -/

/-! ## Concrete fixture documents and remaining claim-side definitions -/

/-- A document whose only match signal for the query `"zoning"` is the
upper-case `matter_category` metadata value. -/
def exMetaDoc : LegDoc :=
  { document_id := str "chicago_leg_100"
    title := str "Budget Item"
    content := str "text"
    document_type := str "ordinance"
    category := str "finance"
    jurisdiction := str "chicago"
    authority := str "Chicago City Council"
    url := str "url100"
    effective_date := str "2024-01-01"
    metadata := [(str "matter_category", str "ZONING"), (str "sponsor", str "")] }

def zoningDoc : LegDoc :=
  { document_id := str "chicago_leg_1"
    title := str "Zoning Reclassification Ordinance"
    content := str "A zoning matter for the city"
    document_type := str "ordinance"
    category := str "construction"
    jurisdiction := str "chicago"
    authority := str "Chicago City Council"
    url := str "url1"
    effective_date := str "2024-01-02"
    metadata := [(str "matter_category", str "ZONING RECLASSIFICATIONS"),
                 (str "sponsor", str "Alderman Smith")] }

def foodDoc : LegDoc :=
  { document_id := str "chicago_leg_2"
    title := str "Food Inspection Report"
    content := str "Restaurant inspection results"
    document_type := str "report"
    category := str "healthcare"
    jurisdiction := str "chicago"
    authority := str "Chicago Department of Health"
    url := str "url2"
    effective_date := str "2024-01-03"
    metadata := [(str "matter_category", str "FOOD"), (str "sponsor", str "")] }

def demoCorpus : List (Str × LegDoc) :=
  [(str "chicago_leg_1", zoningDoc), (str "chicago_leg_2", foodDoc)]

/-- The fixed category taxonomy. -/
def systemTaxonomy : List Str :=
  [str "construction", str "business", str "healthcare", str "transportation",
   str "finance", str "public_safety", str "education", str "environment",
   str "housing", str "governance", str "general"]

/-- The simple ranking-mode formula as the specification words it:
`(content_word_matches × 0.7 + title_word_matches × 1.5) / |query_words|`,
token-set intersection counts, no metadata bonus. -/
def claimSimpleScore (query : Str) (d : RDoc) : ℚ :=
  let qw := (pySplit (lowerStr query)).dedup
  let content_word_matches : ℚ := (qw.filter (fun w => w ∈ pySplit (lowerStr d.content))).length
  let title_word_matches : ℚ := (qw.filter (fun w => w ∈ pySplit (lowerStr d.title))).length
  (content_word_matches * 0.7 + title_word_matches * 1.5) / qw.length

/-- A concrete document of the real-data server. -/
def permitDoc : RDoc :=
  { document_id := str "chicago_real_1"
    title := str "Building Permit Application"
    content := str "Apply for a building permit"
    document_type := str "permit"
    category := str "construction"
    jurisdiction := str "chicago"
    authority := str "Department of Buildings"
    url := str "rurl1"
    effective_date := str "2024-02-01"
    source := str "building_permits" }

/-- A re-ingested version of `zoningDoc`: same `document_id`, new title. -/
def zoningDocV2 : LegDoc :=
  { zoningDoc with title := str "Zoning Reclassification Ordinance Amended" }

/-- First-seen order: the distinct words of a token list in order of first
occurrence (the insertion order of the frequency dict). -/
def firstSeenAux (seen : List Str) : List Str → List Str
  | [] => []
  | w :: ws =>
    if w ∈ seen then firstSeenAux seen ws else w :: firstSeenAux (w :: seen) ws

def firstSeen (toks : List Str) : List Str := firstSeenAux [] toks

/-- State for the claim-side tokenizer: emitted runs and the current
(reversed) alphabetic run. -/
structure RunState where
  toks : List Str
  run : Str

/-- One step of the claim-side tokenizer: group maximal alphabetic runs with
no boundary condition. -/
def runStep (st : RunState) (c : Char) : RunState :=
  if c.isAlpha then { st with run := c :: st.run }
  else { toks := st.toks ++ (if st.run ≠ [] then [st.run.reverse] else []), run := [] }

/-- All maximal alphabetic runs of a string. -/
def alphaRuns (s : Str) : List Str :=
  let st := s.foldl runStep ⟨[], []⟩
  st.toks ++ (if st.run ≠ [] then [st.run.reverse] else [])

/-- The keyword extraction exactly as the claim words it: tokenize the
lower-cased content into *all* maximal alphabetic runs of length at least 3
(no word-boundary condition), count, sort by count descending (stable), take
the top 10. -/
def claimLiteralKeywords (content : Str) : List (Str × Nat) :=
  (sortDesc (fun p => (p.2 : ℚ))
    (wordFreq ((alphaRuns (lowerStr content)).filter (fun r => 3 ≤ r.length)))).take 10

theorem mem_insertDesc {α : Type} {key : α → ℚ} {x a : α} {l : List α} :
    a ∈ insertDesc key x l ↔ a = x ∨ a ∈ l := by
  induction l with
  | nil => simp [insertDesc]
  | cons y ys ih =>
    by_cases h : key y ≤ key x
    · simp [insertDesc, h]
    · simp only [insertDesc, if_neg h, List.mem_cons, ih]
      tauto

theorem mem_sortDesc {α : Type} {key : α → ℚ} {a : α} {l : List α} :
    a ∈ sortDesc key l ↔ a ∈ l := by
  induction l with
  | nil => simp [sortDesc]
  | cons x xs ih => simp [sortDesc, mem_insertDesc, ih]

theorem perm_insertDesc {α : Type} (key : α → ℚ) (x : α) (l : List α) :
    List.Perm (insertDesc key x l) (x :: l) := by
  induction l with
  | nil => simp [insertDesc]
  | cons y ys ih =>
    by_cases h : key y ≤ key x
    · simp [insertDesc, h]
    · have h1 : insertDesc key x (y :: ys) = y :: insertDesc key x ys := by
        simp [insertDesc, h]
      rw [h1]
      exact (ih.cons y).trans (List.Perm.swap x y ys)

theorem perm_sortDesc {α : Type} (key : α → ℚ) (l : List α) :
    List.Perm (sortDesc key l) l := by
  induction l with
  | nil => simp [sortDesc]
  | cons x xs ih => exact (perm_insertDesc key x (sortDesc key xs)).trans (ih.cons x)

theorem pairwise_insertDesc {α : Type} {key : α → ℚ} {x : α} {l : List α}
    (h : l.Pairwise (fun a b => key b ≤ key a)) :
    (insertDesc key x l).Pairwise (fun a b => key b ≤ key a) := by
  induction l with
  | nil => simp [insertDesc]
  | cons y ys ih =>
    rcases List.pairwise_cons.mp h with ⟨hy, hys⟩
    by_cases hxy : key y ≤ key x
    · rw [insertDesc, if_pos hxy]
      refine List.pairwise_cons.mpr ⟨?_, h⟩
      intro b hb
      rcases List.mem_cons.mp hb with rfl | hb
      · exact hxy
      · exact le_trans (hy b hb) hxy
    · rw [insertDesc, if_neg hxy]
      refine List.pairwise_cons.mpr ⟨?_, ih hys⟩
      intro b hb
      rcases mem_insertDesc.mp hb with rfl | hb
      · exact le_of_not_le hxy
      · exact hy b hb

theorem pairwise_sortDesc {α : Type} (key : α → ℚ) (l : List α) :
    (sortDesc key l).Pairwise (fun a b => key b ≤ key a) := by
  induction l with
  | nil => simp [sortDesc]
  | cons x xs ih => exact pairwise_insertDesc ih

/-! ## Lemmas about the weighted ranker -/

theorem pyMin_le_right (a b : ℚ) : pyMin a b ≤ b := by
  unfold pyMin
  split <;> simp_all

theorem pyMin_pos {a b : ℚ} (ha : 0 < a) (hb : 0 < b) : 0 < pyMin a b := by
  unfold pyMin
  split <;> assumption

theorem advScore_nonneg (qw : List Str) (d : LegDoc) : 0 ≤ advScore qw d := by
  unfold advScore
  have hn : (0 : ℚ) ≤ (qw.length : ℚ) := by positivity
  have ht : (0 : ℚ) ≤ (titleOverlap qw d : ℚ) / (qw.length : ℚ) := by positivity
  have hc : (0 : ℚ) ≤ (contentMatches qw d : ℚ) / (qw.length : ℚ) := by positivity
  split_ifs <;> norm_num <;> positivity

theorem advScore_nil (d : LegDoc) : advScore [] d = 0 := by
  simp [advScore, titleOverlap, contentMatches, categoryHit, sponsorHit]

theorem advScore_pos_queryWords {qw : List Str} {d : LegDoc}
    (h : 0 < advScore qw d) : qw ≠ [] := by
  intro hnil
  subst hnil
  rw [advScore_nil] at h
  exact lt_irrefl 0 h

/-- Every element of the result list of the ranker is an annotated copy of a
stored document that passed the filters and scored strictly positive. -/
theorem mem_advancedSemanticSearch {documents : List (Str × LegDoc)} {query : Str}
    {jurisdiction category : Option Str} {limit : Nat} {r : ScoredLegDoc}
    (hr : r ∈ advancedSemanticSearch documents query jurisdiction category limit) :
    ∃ p ∈ documents,
      passesFilters jurisdiction category p.2 = true ∧
      0 < advScore (queryWordsOf query) p.2 ∧
      r = ⟨p.2, pyMin (advScore (queryWordsOf query) p.2) 1,
            getMatchReasons (queryWordsOf query) p.2⟩ := by
  unfold advancedSemanticSearch at hr
  have hr' := (List.take_sublist _ _).mem hr
  rw [mem_sortDesc] at hr'
  rcases List.mem_filterMap.mp hr' with ⟨p, hp, hscore⟩
  unfold scoreDoc at hscore
  by_cases hpass : passesFilters jurisdiction category p.2 = true
  · rw [if_pos hpass] at hscore
    by_cases hpos : advScore (queryWordsOf query) p.2 > 0
    · rw [if_pos hpos] at hscore
      exact ⟨p, hp, hpass, hpos, (Option.some.injEq _ _ ▸ hscore).symm⟩
    · rw [if_neg hpos] at hscore
      exact absurd hscore (by simp)
  · rw [if_neg hpass] at hscore
    exact absurd hscore (by simp)

theorem advScore_eq_sum (qw : List Str) (d : LegDoc) :
    advScore qw d =
      (if 0 < titleOverlap qw d then 0.4 * ((titleOverlap qw d : ℚ) / qw.length) else 0) +
      (if 0 < contentMatches qw d then 0.3 * ((contentMatches qw d : ℚ) / qw.length) else 0) +
      (if categoryHit qw d then 0.2 else 0) +
      (if sponsorHit qw d then 0.1 else 0) := by
  unfold advScore
  split_ifs <;> ring

/-! ## Concrete documents used for witnesses and counterexamples -/

theorem advScore_zoningDoc : advScore (queryWordsOf (str "zoning")) zoningDoc = 9/10 := by
  have hqw : queryWordsOf (str "zoning") = [str "zoning"] := by decide
  have h1 : titleOverlap [str "zoning"] zoningDoc = 1 := by decide
  have h2 : contentMatches [str "zoning"] zoningDoc = 1 := by decide
  have h3 : categoryHit [str "zoning"] zoningDoc = true := by decide
  have h4 : sponsorHit [str "zoning"] zoningDoc = false := by decide
  rw [hqw, advScore_eq_sum, h1, h2, h3, h4]
  norm_num

theorem advScore_foodDoc : advScore (queryWordsOf (str "zoning")) foodDoc = 0 := by
  have hqw : queryWordsOf (str "zoning") = [str "zoning"] := by decide
  have h1 : titleOverlap [str "zoning"] foodDoc = 0 := by decide
  have h2 : contentMatches [str "zoning"] foodDoc = 0 := by decide
  have h3 : categoryHit [str "zoning"] foodDoc = false := by decide
  have h4 : sponsorHit [str "zoning"] foodDoc = false := by decide
  rw [hqw, advScore_eq_sum, h1, h2, h3, h4]
  norm_num

theorem demoSearch_eval :
    advancedSemanticSearch demoCorpus (str "zoning") none none 10 =
      [⟨zoningDoc, 9/10, [str "Title match", str "Content match", str "Category match"]⟩] := by
  have hreasons : getMatchReasons (queryWordsOf (str "zoning")) zoningDoc =
      [str "Title match", str "Content match", str "Category match"] := by decide
  have hsd1 : scoreDoc (queryWordsOf (str "zoning")) none none zoningDoc =
      some ⟨zoningDoc, 9/10, [str "Title match", str "Content match", str "Category match"]⟩ := by
    rw [scoreDoc]
    rw [if_pos (by decide : passesFilters none none zoningDoc = true)]
    rw [hreasons, advScore_zoningDoc]
    norm_num [pyMin]
  have hsd2 : scoreDoc (queryWordsOf (str "zoning")) none none foodDoc = none := by
    rw [scoreDoc]
    rw [if_pos (by decide : passesFilters none none foodDoc = true)]
    rw [advScore_foodDoc]
    norm_num
  simp only [advancedSemanticSearch, demoCorpus, List.filterMap_cons, List.filterMap_nil,
    hsd1, hsd2]
  simp [sortDesc, insertDesc]

/-! ## Claim C1 (corrected) -/

/-- C1 (amended): for every query with at least one token, the weighted
score the ranker gives any document equals the claimed sum — title term, content
term, `+0.2`/`+0.1` metadata bonuses tested against the *lower-cased*
stringified metadata fields — clamped to at most `1.0`; and every returned
result carries exactly that value as its `similarity_score`. -/
theorem claim_C1_theorem (query : Str) (_h : queryWordsOf query ≠ []) :
    (∀ d : LegDoc,
       pyMin (advScore (queryWordsOf query) d) 1 = claimScoreAmended query d) ∧
    (∀ (documents : List (Str × LegDoc)) (jurisdiction category : Option Str)
       (limit : Nat) (r : ScoredLegDoc),
       r ∈ advancedSemanticSearch documents query jurisdiction category limit →
       r.similarity_score = claimScoreAmended query r.doc) := by
  have key : ∀ d : LegDoc,
      pyMin (advScore (queryWordsOf query) d) 1 = claimScoreAmended query d := by
    intro d
    rw [advScore_eq_sum]
    rfl
  refine ⟨key, ?_⟩
  intro documents jurisdiction category limit r hr
  rcases mem_advancedSemanticSearch hr with ⟨p, _, _, _, rfl⟩
  exact key p.2

/-- C1 counterexample: for the query `"zoning"` and a document whose
`matter_category` metadata is the upper-case string `"ZONING"`, the code
attaches score `0.2` (it lower-cases the metadata before the substring test)
while the formula of the claim as written — no case folding on the metadata —
yields `0`. -/
theorem claim_C1_counterexample :
    pyMin (advScore (queryWordsOf (str "zoning")) exMetaDoc) 1 ≠
      claimScoreAsWritten (str "zoning") exMetaDoc ∧
    pyMin (advScore (queryWordsOf (str "zoning")) exMetaDoc) 1 = 1/5 ∧
    claimScoreAsWritten (str "zoning") exMetaDoc = 0 := by
  have hqw : queryWordsOf (str "zoning") = [str "zoning"] := by decide
  have h1 : titleOverlap [str "zoning"] exMetaDoc = 0 := by decide
  have h2 : contentMatches [str "zoning"] exMetaDoc = 0 := by decide
  have h3 : categoryHit [str "zoning"] exMetaDoc = true := by decide
  have h4 : sponsorHit [str "zoning"] exMetaDoc = false := by decide
  have h5 : ([str "zoning"].any
      (fun w => pyIn w (metaField exMetaDoc (str "matter_category")))) = false := by decide
  have h6 : ([str "zoning"].any
      (fun w => pyIn w (metaField exMetaDoc (str "sponsor")))) = false := by decide
  have hcode : pyMin (advScore (queryWordsOf (str "zoning")) exMetaDoc) 1 = 1/5 := by
    rw [hqw, advScore_eq_sum, h1, h2, h3, h4]
    norm_num [pyMin]
  have hclaim : claimScoreAsWritten (str "zoning") exMetaDoc = 0 := by
    simp only [claimScoreAsWritten, hqw, h1, h2, h5, h6]
    norm_num [pyMin]
  refine ⟨?_, hcode, hclaim⟩
  rw [hcode, hclaim]
  norm_num

/-- C1 witness: the amended formula agrees with the code on a concrete
query and document. -/
theorem claim_C1_witness :
    queryWordsOf (str "zoning") ≠ [] ∧
    pyMin (advScore (queryWordsOf (str "zoning")) exMetaDoc) 1 =
      claimScoreAmended (str "zoning") exMetaDoc :=
  ⟨by decide, (claim_C1_theorem (str "zoning") (by decide)).1 exMetaDoc⟩

/-! ## Claim C2 (confirmed) -/

/-- C2: every document returned by the weighted ranker carries a
`similarity_score` in `[0,1]` (in fact strictly positive), and a document
whose total score is `0` never appears in the result list. -/
theorem claim_C2_theorem (documents : List (Str × LegDoc)) (query : Str)
    (jurisdiction category : Option Str) (limit : Nat) :
    (∀ r ∈ advancedSemanticSearch documents query jurisdiction category limit,
       0 ≤ r.similarity_score ∧ r.similarity_score ≤ 1 ∧ 0 < r.similarity_score) ∧
    (∀ d : LegDoc, advScore (queryWordsOf query) d = 0 →
       ∀ r ∈ advancedSemanticSearch documents query jurisdiction category limit,
         r.doc ≠ d) := by
  constructor
  · intro r hr
    rcases mem_advancedSemanticSearch hr with ⟨p, _, _, hpos, rfl⟩
    have h1 : 0 < pyMin (advScore (queryWordsOf query) p.2) 1 := pyMin_pos hpos one_pos
    exact ⟨le_of_lt h1, pyMin_le_right _ _, h1⟩
  · intro d hd r hr
    rcases mem_advancedSemanticSearch hr with ⟨p, _, _, hpos, rfl⟩
    intro heq
    simp only at heq
    rw [heq, hd] at hpos
    exact lt_irrefl 0 hpos

/-- C2 witness: on a concrete two-document corpus and the query `"zoning"`,
the score of the returned zoning result is in `(0, 1]`, and the zero-scoring food
document is not the document of the returned result. -/
theorem claim_C2_witness :
    (0 ≤ (ScoredLegDoc.mk zoningDoc (9/10)
        [str "Title match", str "Content match", str "Category match"]).similarity_score ∧
     (ScoredLegDoc.mk zoningDoc (9/10)
        [str "Title match", str "Content match", str "Category match"]).similarity_score ≤ 1 ∧
     0 < (ScoredLegDoc.mk zoningDoc (9/10)
        [str "Title match", str "Content match", str "Category match"]).similarity_score) ∧
    (ScoredLegDoc.mk zoningDoc (9/10)
        [str "Title match", str "Content match", str "Category match"]).doc ≠ foodDoc := by
  constructor
  · exact (claim_C2_theorem demoCorpus (str "zoning") none none 10).1 _
      (by rw [demoSearch_eval]; exact List.mem_singleton_self _)
  · exact (claim_C2_theorem demoCorpus (str "zoning") none none 10).2 foodDoc advScore_foodDoc _
      (by rw [demoSearch_eval]; exact List.mem_singleton_self _)

/-! ## Claim C3 (confirmed) -/

theorem filter_ne_nil_iff_any {α : Type} (p : α → Bool) (l : List α) :
    l.filter p ≠ [] ↔ l.any p = true := by
  induction l with
  | nil => simp
  | cons x xs ih =>
    by_cases hx : p x
    · simp [List.filter_cons, hx]
    · simp [List.filter_cons, hx, ih]

theorem length_filter_pos_iff_any {α : Type} (p : α → Bool) (l : List α) :
    0 < (l.filter p).length ↔ l.any p = true := by
  rw [List.length_pos]
  exact filter_ne_nil_iff_any p l

theorem pos_weighted_ite {w n : ℚ} (hw : 0 < w) (hn : 0 < n) (t : Nat) :
    (0 < if 0 < t then w * ((t : ℚ) / n) else 0) ↔ 0 < t := by
  split_ifs with h
  · constructor
    · intro _; exact h
    · intro _
      have ht : (0 : ℚ) < (t : ℚ) := by exact_mod_cast h
      positivity
  · simp [h]

theorem pos_bonus_ite {w : ℚ} (hw : 0 < w) (b : Bool) :
    (0 < if b = true then w else 0) ↔ b = true := by
  cases b <;> simp [hw]

/-- Splitting a four-element filter-and-project into its four guarded
singleton pieces. -/
theorem filter_map_fst_four (p1 p2 p3 p4 : Str × ℚ) :
    (([p1, p2, p3, p4].filter (fun p => 0 < p.2)).map Prod.fst) =
      (if 0 < p1.2 then [p1.1] else []) ++ (if 0 < p2.2 then [p2.1] else []) ++
      (if 0 < p3.2 then [p3.1] else []) ++ (if 0 < p4.2 then [p4.1] else []) := by
  by_cases h1 : 0 < p1.2 <;> by_cases h2 : 0 < p2.2 <;>
  by_cases h3 : 0 < p3.2 <;> by_cases h4 : 0 < p4.2 <;>
  simp [List.filter_cons, h1, h2, h3, h4]

/-- Models `_get_match_reasons` emits exactly the labels of the strictly positive
score contributions, in the fixed ranker order. -/
theorem getMatchReasons_eq_positive_signals (qw : List Str) (d : LegDoc)
    (hqw : qw ≠ []) :
    getMatchReasons qw d =
      ((signalContributions qw d).filter (fun p => 0 < p.2)).map Prod.fst := by
  have hn : (0 : ℚ) < (qw.length : ℚ) := by
    have := List.length_pos.mpr hqw
    exact_mod_cast this
  have e1 : (0 < if 0 < titleOverlap qw d then
      (0.4 : ℚ) * ((titleOverlap qw d : ℚ) / qw.length) else 0) ↔
      0 < titleOverlap qw d :=
    pos_weighted_ite (by norm_num) hn _
  have e2 : (0 < if 0 < contentMatches qw d then
      (0.3 : ℚ) * ((contentMatches qw d : ℚ) / qw.length) else 0) ↔
      0 < contentMatches qw d :=
    pos_weighted_ite (by norm_num) hn _
  have e3 : (0 < if categoryHit qw d = true then (0.2 : ℚ) else 0) ↔
      categoryHit qw d = true := pos_bonus_ite (by norm_num) _
  have e4 : (0 < if sponsorHit qw d = true then (0.1 : ℚ) else 0) ↔
      sponsorHit qw d = true := pos_bonus_ite (by norm_num) _
  have ht : ((qw.filter (fun w => w ∈ pySplit (lowerStr d.title))) ≠ []) ↔
      0 < titleOverlap qw d := by
    rw [titleOverlap, List.length_pos]
  have hc : (qw.any (fun w => pyIn w (lowerStr d.content)) = true) ↔
      0 < contentMatches qw d := by
    rw [contentMatches, length_filter_pos_iff_any]
  rw [getMatchReasons, signalContributions, filter_map_fst_four]
  simp only [e1, e2, e3, e4, ht, hc]

/-- C3: the `match_reasons` attached to every returned document are exactly
the labels, from the fixed ordered list, of the signals contributing a
strictly positive amount to the score. -/
theorem claim_C3_theorem (documents : List (Str × LegDoc)) (query : Str)
    (jurisdiction category : Option Str) (limit : Nat) (r : ScoredLegDoc)
    (hr : r ∈ advancedSemanticSearch documents query jurisdiction category limit) :
    r.match_reasons =
      ((signalContributions (queryWordsOf query) r.doc).filter
        (fun p => 0 < p.2)).map Prod.fst := by
  rcases mem_advancedSemanticSearch hr with ⟨p, _, _, hpos, rfl⟩
  exact getMatchReasons_eq_positive_signals _ _ (advScore_pos_queryWords hpos)

/-- C3 witness: on the concrete corpus, the reason list of the zoning result is
exactly the three positive-signal labels, in order. -/
theorem claim_C3_witness :
    (ScoredLegDoc.mk zoningDoc (9/10)
        [str "Title match", str "Content match", str "Category match"]).match_reasons =
      ((signalContributions (queryWordsOf (str "zoning"))
          (ScoredLegDoc.mk zoningDoc (9/10)
            [str "Title match", str "Content match", str "Category match"]).doc).filter
        (fun p => 0 < p.2)).map Prod.fst :=
  claim_C3_theorem demoCorpus (str "zoning") none none 10 _
    (by rw [demoSearch_eval]; exact List.mem_singleton_self _)

/-! ## Claim C4 (confirmed) -/

/-- C4: `_map_category_to_system` is total into the fixed taxonomy — every
pair of input strings yields exactly one taxonomy value, the rule chain being
tried in a fixed priority order with `"general"` as the default — and in
particular `("ZONING RECLASSIFICATIONS", "Ordinance")` classifies as
`"construction"` because the zoning rule fires before the
ordinance-to-governance rule. -/
theorem mem_ite_list {α : Type} {L : List α} {c : Prop} [Decidable c] {a b : α}
    (ha : a ∈ L) (hb : b ∈ L) : (if c then a else b) ∈ L := by
  split <;> assumption

theorem claim_C4_theorem :
    (∀ category matter_type : Str,
       mapCategoryToSystem category matter_type ∈ systemTaxonomy) ∧
    mapCategoryToSystem (str "ZONING RECLASSIFICATIONS") (str "Ordinance") =
      str "construction" := by
  constructor
  · intro category matter_type
    rw [mapCategoryToSystem]
    refine mem_ite_list (by simp [systemTaxonomy]) (mem_ite_list (by simp [systemTaxonomy])
      (mem_ite_list (by simp [systemTaxonomy]) (mem_ite_list (by simp [systemTaxonomy])
      (mem_ite_list (by simp [systemTaxonomy]) (mem_ite_list (by simp [systemTaxonomy])
      (mem_ite_list (by simp [systemTaxonomy]) (mem_ite_list (by simp [systemTaxonomy])
      (mem_ite_list (by simp [systemTaxonomy]) (mem_ite_list (by simp [systemTaxonomy])
      (mem_ite_list (by simp [systemTaxonomy]) (mem_ite_list (by simp [systemTaxonomy])
      (by simp [systemTaxonomy]))))))))))))
  · have ha : pyIn (str "zoning") (lowerStr (str "ZONING RECLASSIFICATIONS")) = true := by
      decide
    simp only [mapCategoryToSystem, ha, Bool.true_or, if_true]

/-! ## Claim C10 (confirmed) -/

theorem advSearchLoop_spec (qw : List Str) (jurisdiction category : Option Str)
    (items : List (Str × LegDoc)) (results : List ScoredLegDoc)
    (docs : List (Str × LegDoc)) :
    advSearchLoop qw jurisdiction category items (results, docs) =
      (results ++ items.filterMap (fun p => scoreDoc qw jurisdiction category p.2),
       docs) := by
  induction items generalizing results with
  | nil => simp [advSearchLoop]
  | cons p rest ih =>
    rw [advSearchLoop]
    cases hs : scoreDoc qw jurisdiction category p.2 with
    | none => rw [ih]; simp [List.filterMap_cons, hs]
    | some r => rw [ih]; simp [List.filterMap_cons, hs]

/-- C10: the weighted ranker never mutates the corpus: for every service
state, query, filters and limit, the post-call state equals the input state,
and every returned result is a fresh annotated copy of some stored document
(score annotations live only on the per-result copies). -/
theorem claim_C10_theorem (st : ServiceState) (query : Str)
    (jurisdiction category : Option Str) (limit : Nat) :
    (advancedSemanticSearchS st query jurisdiction category limit).2 = st ∧
    (∀ r ∈ (advancedSemanticSearchS st query jurisdiction category limit).1,
       ∃ p ∈ st.documents,
         r = ⟨p.2, pyMin (advScore (queryWordsOf query) p.2) 1,
               getMatchReasons (queryWordsOf query) p.2⟩) := by
  have hloop := advSearchLoop_spec (queryWordsOf query) jurisdiction category
    st.documents [] st.documents
  constructor
  · rw [advancedSemanticSearchS]
    rw [hloop]
  · intro r hr
    rw [advancedSemanticSearchS] at hr
    rw [hloop] at hr
    simp only [List.nil_append] at hr
    have hr' := (List.take_sublist _ _).mem hr
    rw [mem_sortDesc] at hr'
    rcases List.mem_filterMap.mp hr' with ⟨p, hp, hscore⟩
    refine ⟨p, hp, ?_⟩
    rw [scoreDoc] at hscore
    by_cases hpass : passesFilters jurisdiction category p.2 = true
    · rw [if_pos hpass] at hscore
      by_cases hpos : advScore (queryWordsOf query) p.2 > 0
      · rw [if_pos hpos] at hscore
        exact (Option.some.injEq _ _ ▸ hscore).symm
      · rw [if_neg hpos] at hscore
        exact absurd hscore (by simp)
    · rw [if_neg hpass] at hscore
      exact absurd hscore (by simp)

/-- C10 witness: on the concrete two-document corpus the post-search state is
the input state, and the returned zoning result is the annotated copy of the
stored zoning document. -/
theorem claim_C10_witness :
    (advancedSemanticSearchS ⟨demoCorpus, []⟩ (str "zoning") none none 10).2 =
      ⟨demoCorpus, []⟩ ∧
    ∃ p ∈ (⟨demoCorpus, []⟩ : ServiceState).documents,
      (ScoredLegDoc.mk zoningDoc (9/10)
          [str "Title match", str "Content match", str "Category match"]) =
        ⟨p.2, pyMin (advScore (queryWordsOf (str "zoning")) p.2) 1,
          getMatchReasons (queryWordsOf (str "zoning")) p.2⟩ := by
  have hmem : (ScoredLegDoc.mk zoningDoc (9/10)
      [str "Title match", str "Content match", str "Category match"]) ∈
      (advancedSemanticSearchS ⟨demoCorpus, []⟩ (str "zoning") none none 10).1 := by
    have : (advancedSemanticSearchS ⟨demoCorpus, []⟩ (str "zoning") none none 10).1 =
        advancedSemanticSearch demoCorpus (str "zoning") none none 10 := by
      simp only [advancedSemanticSearchS, advSearchLoop_spec, advancedSemanticSearch,
        List.nil_append]
    rw [this, demoSearch_eval]
    exact List.mem_singleton_self _
  exact ⟨(claim_C10_theorem ⟨demoCorpus, []⟩ (str "zoning") none none 10).1,
    (claim_C10_theorem ⟨demoCorpus, []⟩ (str "zoning") none none 10).2 _ hmem⟩

/-! ## Claim C9 (confirmed) -/

/-- C9: with an empty candidate list the composer returns the fixed apology
answer, confidence `0.0` and an empty `sources` list; with a non-empty
candidate list the confidence equals the `similarity_score` of the top candidate
(default `0.5` when absent) and `sources` is non-empty. -/
theorem claim_C9_theorem (st : ServiceState) (user_message : Str)
    (recommended : List ChatCandidate) :
    (recommended = [] →
       (generateLegislationChatResponse st user_message recommended).1.answer =
         apologyAnswer ∧
       (generateLegislationChatResponse st user_message recommended).1.confidence_score = 0 ∧
       (generateLegislationChatResponse st user_message recommended).1.sources = []) ∧
    (∀ best rest, recommended = best :: rest →
       (generateLegislationChatResponse st user_message recommended).1.confidence_score =
         best.similarity_score.getD (1/2) ∧
       (generateLegislationChatResponse st user_message recommended).1.sources ≠ []) := by
  constructor
  · rintro rfl
    simp [generateLegislationChatResponse]
  · rintro best rest rfl
    constructor
    · simp only [generateLegislationChatResponse]
      norm_num
    · simp [generateLegislationChatResponse]

/-- C9 witness: the composer applied to an empty candidate list and to a
one-candidate list (with no stored `similarity_score`, exercising the `0.5`
default). -/
theorem claim_C9_witness :
    ((generateLegislationChatResponse ⟨demoCorpus, []⟩ (str "hello") []).1.answer =
       apologyAnswer ∧
     (generateLegislationChatResponse ⟨demoCorpus, []⟩ (str "hello") []).1.confidence_score = 0 ∧
     (generateLegislationChatResponse ⟨demoCorpus, []⟩ (str "hello") []).1.sources = []) ∧
    ((generateLegislationChatResponse ⟨demoCorpus, []⟩ (str "hello")
        [⟨zoningDoc, none, none⟩]).1.confidence_score =
       (Option.getD (none : Option ℚ) (1/2)) ∧
     (generateLegislationChatResponse ⟨demoCorpus, []⟩ (str "hello")
        [⟨zoningDoc, none, none⟩]).1.sources ≠ []) :=
  ⟨(claim_C9_theorem ⟨demoCorpus, []⟩ (str "hello") []).1 rfl,
   (claim_C9_theorem ⟨demoCorpus, []⟩ (str "hello") [⟨zoningDoc, none, none⟩]).2
     ⟨zoningDoc, none, none⟩ [] rfl⟩

/-! ## Claim C6 (confirmed) -/

theorem simpleLoop_ok {qw : List Str} (h : qw ≠ []) (docs : List (Str × RDoc)) :
    simpleLoop qw docs = .ok (docs.filterMap (fun p =>
      if simpleScore qw p.2 > 0 then some ⟨p.2, pyMin (simpleScore qw p.2) 1⟩
      else none)) := by
  have hlen : ¬ qw.length = 0 := by
    simp only [List.length_eq_zero]
    exact h
  induction docs with
  | nil => simp [simpleLoop]
  | cons p rest ih =>
    rw [simpleLoop, if_neg hlen, ih]
    by_cases hs : simpleScore qw p.2 > 0
    · simp [List.filterMap_cons, hs, Except.map]
    · simp [List.filterMap_cons, hs, Except.map]

/-- C6: for a query with at least one token, the simple whole-corpus ranking
mode succeeds, every returned document carries
`min((content_matches × 0.7 + title_matches × 1.5) / |query_words|, 1.0)` as
its score, and a document appears in the output only when its (unclamped)
score is strictly positive. -/
theorem claim_C6_theorem (documents : List (Str × RDoc)) (query : Str) (top_k : Nat)
    (h : (pySplit (lowerStr query)).dedup ≠ []) :
    ∃ results, simpleSimilaritySearch documents query top_k = .ok results ∧
      (∀ r ∈ results,
         r.similarity_score = pyMin (claimSimpleScore query r.doc) 1 ∧
         0 < claimSimpleScore query r.doc ∧
         ∃ p ∈ documents, r.doc = p.2) ∧
      (∀ d : RDoc, ¬ 0 < claimSimpleScore query d → ∀ r ∈ results, r.doc ≠ d) := by
  have heq : ∀ d : RDoc, claimSimpleScore query d =
      simpleScore ((pySplit (lowerStr query)).dedup) d := by
    intro d
    rfl
  refine ⟨_, by rw [simpleSimilaritySearch, simpleLoop_ok h documents]; rfl, ?_, ?_⟩
  · intro r hr
    have hr' := (List.take_sublist _ _).mem hr
    rw [mem_sortDesc] at hr'
    rcases List.mem_filterMap.mp hr' with ⟨p, hp, hscore⟩
    by_cases hs : simpleScore ((pySplit (lowerStr query)).dedup) p.2 > 0
    · rw [if_pos hs] at hscore
      rcases (Option.some.injEq _ _).mp hscore with rfl
      exact ⟨by rw [heq], by rw [heq]; exact hs, p, hp, rfl⟩
    · rw [if_neg hs] at hscore
      exact absurd hscore (by simp)
  · intro d hd r hr
    have hr' := (List.take_sublist _ _).mem hr
    rw [mem_sortDesc] at hr'
    rcases List.mem_filterMap.mp hr' with ⟨p, hp, hscore⟩
    by_cases hs : simpleScore ((pySplit (lowerStr query)).dedup) p.2 > 0
    · rw [if_pos hs] at hscore
      rcases (Option.some.injEq _ _).mp hscore with rfl
      intro hcon
      have hpd : p.2 = d := hcon
      rw [hpd] at hs
      exact hd (by rw [heq]; exact hs)
    · rw [if_neg hs] at hscore
      exact absurd hscore (by simp)

/-- C6 witness: the simple ranker applied to a one-document store with the
query `"permit"`. -/
theorem claim_C6_witness :
    ((pySplit (lowerStr (str "permit"))).dedup ≠ []) ∧
    (∃ results,
       simpleSimilaritySearch [(str "chicago_real_1", permitDoc)] (str "permit") 5 =
         .ok results ∧
       (∀ r ∈ results,
          r.similarity_score = pyMin (claimSimpleScore (str "permit") r.doc) 1 ∧
          0 < claimSimpleScore (str "permit") r.doc ∧
          ∃ p ∈ [(str "chicago_real_1", permitDoc)], r.doc = p.2) ∧
       (∀ d : RDoc, ¬ 0 < claimSimpleScore (str "permit") d →
          ∀ r ∈ results, r.doc ≠ d)) :=
  ⟨by decide,
   claim_C6_theorem [(str "chicago_real_1", permitDoc)] (str "permit") 5 (by decide)⟩

/-! ## Claim C7 (corrected) -/

theorem blank_all_ws {s : Str} (h : pyStrip s = []) : ∀ c ∈ s, isWs c = true := by
  rw [pyStrip, List.reverse_eq_nil_iff] at h
  have h2 : ∀ c ∈ s.dropWhile isWs, isWs c = true := by
    intro c hc
    exact List.dropWhile_eq_nil_iff.mp h c (List.mem_reverse.mpr hc)
  intro c hc
  rw [← List.takeWhile_append_dropWhile (p := isWs) (l := s)] at hc
  rcases List.mem_append.mp hc with h1 | h1
  · exact List.mem_takeWhile_imp h1
  · exact h2 c h1

theorem lowerChar_ws {c : Char} (h : isWs c = true) : isWs (lowerChar c) = true := by
  have h4 : ((c = ' ' ∨ c = '\t') ∨ c = '\n') ∨ c = '\r' := by
    simpa [isWs] using h
  rcases h4 with ((rfl | rfl) | rfl) | rfl <;> decide

theorem splitWsAux_all_ws {s : Str} (h : ∀ c ∈ s, isWs c = true) :
    splitWsAux s [] = [] := by
  induction s with
  | nil => rfl
  | cons c cs ih =>
    rw [splitWsAux, if_pos (h c (List.mem_cons_self c cs))]
    simpa using ih (fun x hx => h x (List.mem_cons_of_mem c hx))

/-- A blank string (falsy after `.strip()`) tokenizes to no words at all,
before or after lower-casing. -/
theorem blank_tokens {s : Str} (h : pyStrip s = []) : pySplit (lowerStr s) = [] := by
  apply splitWsAux_all_ws
  intro c hc
  rcases List.mem_map.mp hc with ⟨c', hc', rfl⟩
  exact lowerChar_ws (blank_all_ws h c' hc')

/-- C7 (amended): the legislation server rejects blank search and chat input
with `400` before the ranker runs; the real-data server does *not* reject
blank input — it hands it to `simple_similarity_search`, whose
`ZeroDivisionError` surfaces as a `500` whenever the store is non-empty, and
which returns an empty `200` result over an empty store. -/
theorem claim_C7_theorem :
    (∀ (st : ServiceState) (query : Str) (jurisdiction category : Option Str)
       (limit : Nat), pyStrip query = [] →
       legSearchEndpoint st query jurisdiction category limit = .err 400) ∧
    (∀ (st : ServiceState) (msg : Str) (use_context : Bool) (mcd : Nat),
       pyStrip msg = [] → legChatEndpoint st msg use_context mcd = .err 400) ∧
    (∀ (documents : List (Str × RDoc)) (query : Str) (top_k : Nat)
       (category : Option Str), pyStrip query = [] → documents ≠ [] →
       realSemanticSearchEndpoint documents query top_k category = .err 500) ∧
    (∀ (documents : List (Str × RDoc)) (query : Str) (top_k : Nat)
       (category : Option Str), pyStrip query = [] → documents = [] →
       realSemanticSearchEndpoint documents query top_k category = .ok []) ∧
    (∀ (documents : List (Str × RDoc)) (msg : Str), pyStrip msg = [] →
       documents ≠ [] → realAskQuestionEndpoint documents msg true = .err 500) := by
  have hqw : ∀ q : Str, pyStrip q = [] → (pySplit (lowerStr q)).dedup = [] := by
    intro q hq
    rw [blank_tokens hq]
    rfl
  refine ⟨?_, ?_, ?_, ?_, ?_⟩
  · intro st query jurisdiction category limit hblank
    rw [legSearchEndpoint, if_pos hblank]
  · intro st msg use_context mcd hblank
    rw [legChatEndpoint, if_pos hblank]
  · intro documents query top_k category hblank hne
    rcases documents with _ | ⟨p, rest⟩
    · exact absurd rfl hne
    · have h0 : ([] : List Str).length = 0 := rfl
      rw [realSemanticSearchEndpoint, simpleSimilaritySearch]
      rw [hqw query hblank]
      rw [simpleLoop, if_pos h0]
      rfl
  · intro documents query top_k category hblank hempty
    subst hempty
    rw [realSemanticSearchEndpoint, simpleSimilaritySearch, hqw query hblank, simpleLoop]
    cases category with
    | none => simp [sortDesc, Except.map]
    | some c => by_cases hc : c = [] <;> simp [sortDesc, Except.map, hc]
  · intro documents msg hblank hne
    rcases documents with _ | ⟨p, rest⟩
    · exact absurd rfl hne
    · have h0 : ([] : List Str).length = 0 := rfl
      rw [realAskQuestionEndpoint]
      rw [if_pos rfl, simpleSimilaritySearch, hqw msg hblank, simpleLoop, if_pos h0]
      rfl

/-- C7 counterexample: a blank query against the search endpoint of the real-data
server over a non-empty store is *not* rejected as a `400` client error —
the tokenless query reaches the ranker and the division by zero comes back
as a `500`. -/
theorem claim_C7_counterexample :
    realSemanticSearchEndpoint [(str "chicago_real_1", permitDoc)] (str " ") 5 none =
      .err 500 ∧
    realSemanticSearchEndpoint [(str "chicago_real_1", permitDoc)] (str " ") 5 none ≠
      .err 400 := by
  have hqw : (pySplit (lowerStr (str " "))).dedup = [] := by decide
  have h500 : realSemanticSearchEndpoint [(str "chicago_real_1", permitDoc)] (str " ") 5
      none = .err 500 := by
    have h0 : ([] : List Str).length = 0 := rfl
    rw [realSemanticSearchEndpoint, simpleSimilaritySearch, hqw, simpleLoop, if_pos h0]
    rfl
  exact ⟨h500, by rw [h500]; simp⟩

/-- C7 witness: the two legislation-server endpoints do reject a concrete
blank input with `400`, while the real-data endpoints on the same blank input
yield `500` (non-empty store) or an empty `200` (empty store). -/
theorem claim_C7_witness :
    legSearchEndpoint ⟨demoCorpus, []⟩ (str "  ") none none 10 = .err 400 ∧
    legChatEndpoint ⟨demoCorpus, []⟩ (str "  ") true 5 = .err 400 ∧
    realSemanticSearchEndpoint [(str "chicago_real_1", permitDoc)] (str "  ") 5 none =
      .err 500 ∧
    realSemanticSearchEndpoint [] (str "  ") 5 none = .ok [] ∧
    realAskQuestionEndpoint [(str "chicago_real_1", permitDoc)] (str "  ") true =
      .err 500 :=
  ⟨claim_C7_theorem.1 ⟨demoCorpus, []⟩ (str "  ") none none 10 (by decide),
   claim_C7_theorem.2.1 ⟨demoCorpus, []⟩ (str "  ") true 5 (by decide),
   claim_C7_theorem.2.2.1 [(str "chicago_real_1", permitDoc)] (str "  ") 5 none
     (by decide) (by simp),
   claim_C7_theorem.2.2.2.1 [] (str "  ") 5 none (by decide) rfl,
   claim_C7_theorem.2.2.2.2 [(str "chicago_real_1", permitDoc)] (str "  ")
     (by decide) (by simp)⟩

/-! ## Claim C8 (confirmed) -/

theorem map_fst_overwrite {α : Type} (m : List (Str × α)) (k : Str) (v : α) :
    (m.map (fun p => if p.1 = k then (k, v) else p)).map Prod.fst = m.map Prod.fst := by
  induction m with
  | nil => rfl
  | cons p rest ih =>
    by_cases h : p.1 = k
    · simp [h, ih]
    · simp [h, ih]

theorem dictLookup_isSome_iff {α : Type} (m : List (Str × α)) (k : Str) :
    (dictLookup m k).isSome = true ↔ k ∈ m.map Prod.fst := by
  induction m with
  | nil => simp [dictLookup]
  | cons p rest ih =>
    rcases p with ⟨k', v⟩
    by_cases h : k' = k
    · subst h
      rw [dictLookup, if_pos rfl, List.map_cons]
      constructor
      · intro _
        exact List.mem_cons_self _ _
      · intro _
        rfl
    · rw [dictLookup, if_neg h, List.map_cons, List.mem_cons]
      constructor
      · intro hs
        exact Or.inr (ih.mp hs)
      · intro hs
        rcases hs with hs | hs
        · exact absurd hs.symm h
        · exact ih.mpr hs

theorem dictInsert_map_fst {α : Type} (m : List (Str × α)) (k : Str) (v : α) :
    (dictInsert m k v).map Prod.fst =
      if k ∈ m.map Prod.fst then m.map Prod.fst else m.map Prod.fst ++ [k] := by
  rw [dictInsert]
  by_cases h : (dictLookup m k).isSome = true
  · rw [if_pos h, if_pos ((dictLookup_isSome_iff m k).mp h), map_fst_overwrite]
  · rw [if_neg h, if_neg (fun hm => h ((dictLookup_isSome_iff m k).mpr hm))]
    rw [List.map_append]
    rfl

theorem dictInsert_length {α : Type} (m : List (Str × α)) (k : Str) (v : α) :
    (dictInsert m k v).length =
      if k ∈ m.map Prod.fst then m.length else m.length + 1 := by
  have h1 : (dictInsert m k v).length = ((dictInsert m k v).map Prod.fst).length := by
    rw [List.length_map]
  have h2 : m.length = (m.map Prod.fst).length := by rw [List.length_map]
  rw [h1, dictInsert_map_fst]
  split_ifs with h
  · rw [h2]
  · rw [h2, List.length_append]
    rfl

theorem lookup_map_overwrite {α : Type} (m : List (Str × α)) (k : Str) (v : α)
    (h : k ∈ m.map Prod.fst) :
    dictLookup (m.map (fun p => if p.1 = k then (k, v) else p)) k = some v := by
  induction m with
  | nil => simp at h
  | cons p rest ih =>
    rcases p with ⟨k', v'⟩
    by_cases hk : k' = k
    · subst hk
      rw [List.map_cons]
      have he : (if ((k', v') : Str × α).1 = k' then (k', v) else (k', v')) =
          (k', v) := if_pos rfl
      rw [he, dictLookup, if_pos rfl]
    · rw [List.map_cons]
      have he : (if ((k', v') : Str × α).1 = k then (k, v) else (k', v')) =
          (k', v') := if_neg hk
      rw [he, dictLookup, if_neg hk]
      apply ih
      rw [List.map_cons] at h
      rcases List.mem_cons.mp h with h1 | h1
      · exact absurd h1.symm hk
      · exact h1

theorem lookup_append_absent {α : Type} (m : List (Str × α)) (k : Str) (v : α)
    (h : k ∉ m.map Prod.fst) :
    dictLookup (m ++ [(k, v)]) k = some v := by
  induction m with
  | nil => rw [List.nil_append, dictLookup, if_pos rfl]
  | cons p rest ih =>
    rcases p with ⟨k', v'⟩
    have hk : k' ≠ k := by
      intro he
      exact h (by rw [List.map_cons, ← he]; exact List.mem_cons_self _ _)
    rw [List.cons_append, dictLookup, if_neg hk]
    exact ih (fun hm => h (by rw [List.map_cons]; exact List.mem_cons_of_mem _ hm))

theorem dictLookup_dictInsert_self {α : Type} (m : List (Str × α)) (k : Str) (v : α) :
    dictLookup (dictInsert m k v) k = some v := by
  rw [dictInsert]
  by_cases h : (dictLookup m k).isSome = true
  · rw [if_pos h]
    exact lookup_map_overwrite m k v ((dictLookup_isSome_iff m k).mp h)
  · rw [if_neg h]
    exact lookup_append_absent m k v (fun hm => h ((dictLookup_isSome_iff m k).mpr hm))

theorem ingestDocs_concat (m : List (Str × LegDoc)) (batch : List LegDoc) (d : LegDoc) :
    ingestDocs m (batch ++ [d]) = storeDoc (ingestDocs m batch) d := by
  rw [ingestDocs, ingestDocs, List.foldl_append]
  rfl

/-- The ingestion invariant: after ingesting a batch into an empty corpus,
the corpus keys are exactly the document ids of the batch (no duplicates), and the
corpus size is the number of distinct ids. -/
theorem ingest_invariant (batch : List LegDoc) :
    ((ingestDocs [] batch).map Prod.fst).toFinset =
      (batch.map LegDoc.document_id).toFinset ∧
    ((ingestDocs [] batch).map Prod.fst).Nodup ∧
    (ingestDocs [] batch).length = (batch.map LegDoc.document_id).toFinset.card := by
  induction batch using List.reverseRecOn with
  | nil => simp [ingestDocs]
  | append_singleton l a ih =>
    rcases ih with ⟨hset, hnodup, hlen⟩
    rw [ingestDocs_concat]
    have hids : ((l ++ [a]).map LegDoc.document_id).toFinset =
        (l.map LegDoc.document_id).toFinset ∪ {a.document_id} := by
      rw [List.map_append, List.toFinset_append]
      rfl
    have hmem : (a.document_id ∈ (ingestDocs [] l).map Prod.fst) ↔
        a.document_id ∈ (l.map LegDoc.document_id).toFinset := by
      rw [← List.mem_toFinset, hset]
    refine ⟨?_, ?_, ?_⟩
    · rw [storeDoc, dictInsert_map_fst, hids]
      split_ifs with h
      · rw [hset]
        exact (Finset.union_eq_left.mpr
          (Finset.singleton_subset_iff.mpr (hmem.mp h))).symm
      · rw [List.toFinset_append, hset]
        rfl
    · rw [storeDoc, dictInsert_map_fst]
      split_ifs with h
      · exact hnodup
      · refine List.Nodup.append hnodup (List.nodup_singleton _) ?_
        intro x hx hxk
        rcases List.mem_singleton.mp hxk with rfl
        exact h hx
    · rw [storeDoc, dictInsert_length, hids]
      split_ifs with h
      · rw [hlen,
          Finset.union_eq_left.mpr (Finset.singleton_subset_iff.mpr (hmem.mp h))]
      · rw [hlen, Finset.union_comm, ← Finset.insert_eq,
          Finset.card_insert_of_not_mem (fun hin => h (hmem.mpr hin))]

/-- C8: ingesting a document whose `document_id` already exists overwrites
the stored entry (the new document is what the id maps to afterwards, and the
corpus size does not grow), and after any ingestion sequence from an empty
corpus the corpus size equals the number of distinct ids ever ingested. -/
theorem claim_C8_theorem (batch : List LegDoc) (d : LegDoc) :
    dictLookup (ingestDocs [] (batch ++ [d])) d.document_id = some d ∧
    (d.document_id ∈ batch.map LegDoc.document_id →
       (ingestDocs [] (batch ++ [d])).length = (ingestDocs [] batch).length) ∧
    (ingestDocs [] batch).length = (batch.map LegDoc.document_id).toFinset.card := by
  refine ⟨?_, ?_, (ingest_invariant batch).2.2⟩
  · rw [ingestDocs_concat, storeDoc]
    exact dictLookup_dictInsert_self _ _ _
  · intro hd
    have hkeys : d.document_id ∈ (ingestDocs [] batch).map Prod.fst := by
      rw [← List.mem_toFinset, (ingest_invariant batch).1, List.mem_toFinset]
      exact hd
    rw [ingestDocs_concat, storeDoc, dictInsert_length, if_pos hkeys]

/-- C8 witness: re-ingesting a document with a previously seen id overwrites
the entry and leaves the corpus size at the number of distinct ids. -/
theorem claim_C8_witness :
    dictLookup (ingestDocs [] ([zoningDoc, foodDoc] ++ [zoningDocV2]))
      zoningDocV2.document_id = some zoningDocV2 ∧
    (ingestDocs [] ([zoningDoc, foodDoc] ++ [zoningDocV2])).length =
      (ingestDocs [] [zoningDoc, foodDoc]).length ∧
    (ingestDocs [] [zoningDoc, foodDoc]).length =
      ([zoningDoc, foodDoc].map LegDoc.document_id).toFinset.card :=
  ⟨(claim_C8_theorem [zoningDoc, foodDoc] zoningDocV2).1,
   (claim_C8_theorem [zoningDoc, foodDoc] zoningDocV2).2.1 (by decide),
   (claim_C8_theorem [zoningDoc, foodDoc] zoningDocV2).2.2⟩

/-! ## Claim C5 (corrected) -/

theorem bump_map_fst (acc : List (Str × Nat)) (w : Str) :
    (bump acc w).map Prod.fst =
      if w ∈ acc.map Prod.fst then acc.map Prod.fst else acc.map Prod.fst ++ [w] := by
  induction acc with
  | nil => simp [bump]
  | cons p rest ih =>
    rcases p with ⟨x, k⟩
    by_cases h : x = w
    · subst h
      rw [bump, if_pos rfl, List.map_cons, List.map_cons]
      rw [if_pos (List.mem_cons_self _ _)]
    · rw [bump, if_neg h, List.map_cons, List.map_cons, ih]
      by_cases hw : w ∈ rest.map Prod.fst
      · rw [if_pos hw, if_pos (List.mem_cons_of_mem _ hw)]
      · rw [if_neg hw, if_neg ?_, List.cons_append]
        intro hc
        rcases List.mem_cons.mp hc with hc | hc
        · exact h hc.symm
        · exact hw hc

theorem lookup_bump_self (acc : List (Str × Nat)) (w : Str) :
    dictLookup (bump acc w) w = some ((dictLookup acc w).getD 0 + 1) := by
  induction acc with
  | nil => simp [bump, dictLookup]
  | cons p rest ih =>
    rcases p with ⟨x, k⟩
    by_cases h : x = w
    · subst h
      rw [bump, if_pos rfl, dictLookup, if_pos rfl, dictLookup, if_pos rfl]
      rfl
    · rw [bump, if_neg h, dictLookup, if_neg h, dictLookup, if_neg h, ih]

theorem lookup_bump_other (acc : List (Str × Nat)) {w v : Str} (hv : v ≠ w) :
    dictLookup (bump acc w) v = dictLookup acc v := by
  induction acc with
  | nil => simp [bump, dictLookup, Ne.symm hv]
  | cons p rest ih =>
    rcases p with ⟨x, k⟩
    by_cases h : x = w
    · subst h
      rw [bump, if_pos rfl, dictLookup, if_neg (Ne.symm hv), dictLookup,
        if_neg (Ne.symm hv)]
    · rw [bump, if_neg h, dictLookup, dictLookup]
      by_cases hx : x = v
      · rw [if_pos hx, if_pos hx]
      · rw [if_neg hx, if_neg hx, ih]

theorem firstSeenAux_congr {s₁ s₂ : List Str} (h : ∀ x, x ∈ s₁ ↔ x ∈ s₂)
    (l : List Str) : firstSeenAux s₁ l = firstSeenAux s₂ l := by
  induction l generalizing s₁ s₂ with
  | nil => rfl
  | cons w ws ih =>
    rw [firstSeenAux, firstSeenAux]
    by_cases hw : w ∈ s₁
    · rw [if_pos hw, if_pos ((h w).mp hw)]
      exact ih h
    · rw [if_neg hw, if_neg (fun hc => hw ((h w).mpr hc))]
      refine congrArg _ (ih ?_)
      intro x
      simp only [List.mem_cons]
      exact or_congr Iff.rfl (h x)

theorem foldl_bump_map_fst (toks : List Str) :
    ∀ acc : List (Str × Nat),
      (toks.foldl bump acc).map Prod.fst =
        acc.map Prod.fst ++ firstSeenAux (acc.map Prod.fst) toks := by
  induction toks with
  | nil => intro acc; simp [firstSeenAux]
  | cons w ws ih =>
    intro acc
    rw [List.foldl_cons, ih, bump_map_fst, firstSeenAux]
    by_cases hw : w ∈ acc.map Prod.fst
    · rw [if_pos hw, if_pos hw]
    · rw [if_neg hw, if_neg hw]
      rw [@firstSeenAux_congr (acc.map Prod.fst ++ [w]) (w :: acc.map Prod.fst)
        (by intro x; simp; tauto) ws]
      simp

theorem foldl_bump_lookup (toks : List Str) :
    ∀ (acc : List (Str × Nat)) (w : Str),
      dictLookup (toks.foldl bump acc) w =
        if w ∈ toks ∨ (dictLookup acc w).isSome = true then
          some ((dictLookup acc w).getD 0 + toks.count w)
        else none := by
  induction toks with
  | nil =>
    intro acc w
    cases hl : dictLookup acc w <;> simp [hl]
  | cons w' ws ih =>
    intro acc w
    rw [List.foldl_cons, ih]
    by_cases h : w' = w
    · subst h
      rw [lookup_bump_self]
      simp only [Option.isSome_some, Option.getD_some, or_true, if_true,
        List.mem_cons, true_or, List.count_cons_self]
      exact congrArg some (by omega)
    · rw [lookup_bump_other acc (Ne.symm h)]
      rw [List.count_cons_of_ne (Ne.symm h)]
      simp only [List.mem_cons, eq_false (fun he : w = w' => h he.symm), false_or]

theorem wordFreq_map_fst (toks : List Str) :
    (wordFreq toks).map Prod.fst = firstSeen toks := by
  rw [wordFreq, foldl_bump_map_fst toks [], firstSeen]
  rfl

theorem wordFreq_lookup (toks : List Str) (w : Str) :
    dictLookup (wordFreq toks) w =
      if w ∈ toks then some (toks.count w) else none := by
  rw [wordFreq, foldl_bump_lookup toks [] w]
  simp [dictLookup]

theorem firstSeenAux_spec (l : List Str) :
    ∀ seen : List Str,
      (firstSeenAux seen l).Nodup ∧ ∀ x ∈ firstSeenAux seen l, x ∉ seen := by
  induction l with
  | nil => intro seen; simp [firstSeenAux]
  | cons w ws ih =>
    intro seen
    rw [firstSeenAux]
    by_cases hw : w ∈ seen
    · rw [if_pos hw]
      exact ih seen
    · rw [if_neg hw]
      rcases ih (w :: seen) with ⟨hnd, hnotin⟩
      constructor
      · rw [List.nodup_cons]
        exact ⟨fun hc => hnotin w hc (List.mem_cons_self _ _), hnd⟩
      · intro x hx
        rcases List.mem_cons.mp hx with rfl | hx
        · exact hw
        · exact fun hc => hnotin x hx (List.mem_cons_of_mem _ hc)

theorem wordFreq_keys_nodup (toks : List Str) :
    ((wordFreq toks).map Prod.fst).Nodup := by
  rw [wordFreq_map_fst, firstSeen]
  exact (firstSeenAux_spec toks []).1

theorem lookup_of_mem_nodup {α : Type} {m : List (Str × α)} {k : Str} {v : α}
    (h : (m.map Prod.fst).Nodup) (hm : (k, v) ∈ m) : dictLookup m k = some v := by
  induction m with
  | nil => simp at hm
  | cons p rest ih =>
    rcases p with ⟨k', v'⟩
    rw [List.map_cons, List.nodup_cons] at h
    rcases List.mem_cons.mp hm with he | hm'
    · rcases Prod.mk.injEq .. ▸ he with ⟨rfl, rfl⟩
      rw [dictLookup, if_pos rfl]
    · have hk : k' ≠ k := by
        intro he
        subst he
        exact h.1 (List.mem_map.mpr ⟨(k', v), hm', rfl⟩)
      rw [dictLookup, if_neg hk]
      exact ih h.2 hm'

/-- Every entry of the frequency dict records the exact occurrence count of
its word in the token list. -/
theorem wordFreq_count {toks : List Str} {p : Str × Nat} (hp : p ∈ wordFreq toks) :
    p.2 = toks.count p.1 := by
  have hl : dictLookup (wordFreq toks) p.1 = some p.2 :=
    lookup_of_mem_nodup (wordFreq_keys_nodup toks) (by rcases p with ⟨w, k⟩; exact hp)
  rw [wordFreq_lookup] at hl
  by_cases hmem : p.1 ∈ toks
  · rw [if_pos hmem] at hl
    exact (Option.some.injEq _ _ ▸ hl).symm
  · rw [if_neg hmem] at hl
    exact absurd hl (by simp)

theorem insertDesc_split {α : Type} (key : α → ℚ) (x : α) (l : List α) :
    ∃ l₁ l₂, l = l₁ ++ l₂ ∧ insertDesc key x l = l₁ ++ x :: l₂ ∧
      ∀ y ∈ l₁, key x < key y := by
  induction l with
  | nil => exact ⟨[], [], rfl, rfl, by intro y hy; simp at hy⟩
  | cons y ys ih =>
    by_cases h : key y ≤ key x
    · refine ⟨[], y :: ys, rfl, ?_, by intro z hz; simp at hz⟩
      rw [insertDesc, if_pos h]
      rfl
    · rcases ih with ⟨l₁, l₂, he, hi, hgt⟩
      refine ⟨y :: l₁, l₂, by rw [List.cons_append, ← he], ?_, ?_⟩
      · rw [insertDesc, if_neg h, hi, List.cons_append]
      · intro z hz
        rcases List.mem_cons.mp hz with rfl | hz
        · exact lt_of_not_le h
        · exact hgt z hz

/-- Stability of the descending sort: a pair of equal-keyed elements occurs
in the sorted output in the same relative order as in the (duplicate-free)
input. -/
theorem sortDesc_stable_pair {α : Type} (key : α → ℚ) {l : List α} {a b : α}
    (hn : l.Nodup) (h : List.Sublist [a, b] (sortDesc key l)) (hk : key a = key b) :
    List.Sublist [a, b] l := by
  induction l with
  | nil =>
    rw [sortDesc] at h
    simp at h
  | cons x xs ih =>
    rw [sortDesc] at h
    rcases insertDesc_split key x (sortDesc key xs) with ⟨l₁, l₂, he, hi, hgt⟩
    rw [hi] at h
    rcases List.nodup_cons.mp hn with ⟨hxxs, hxs⟩
    have hsub1 : List.Sublist l₁ (sortDesc key xs) := he ▸ List.sublist_append_left l₁ l₂
    have hsub2 : List.Sublist l₂ (sortDesc key xs) := he ▸ List.sublist_append_right l₁ l₂
    rcases List.sublist_append_iff.mp h with ⟨c₁, c₂, hc, h₁, h₂⟩
    cases c₁ with
    | nil =>
      rw [List.nil_append] at hc
      subst hc
      rcases List.sublist_cons_iff.mp h₂ with hs | ⟨r, hr, hrs⟩
      · exact (ih hxs (hs.trans hsub2)).cons x
      · injection hr with hax hbr
        subst hax
        have hb : b ∈ l₂ := by
          rw [← hbr] at hrs
          exact List.singleton_sublist.mp hrs
        have hbxs : b ∈ xs := mem_sortDesc.mp (hsub2.mem hb)
        exact (List.singleton_sublist.mpr hbxs).cons₂ a
    | cons u t =>
      cases t with
      | nil =>
        rw [List.cons_append, List.nil_append] at hc
        injection hc with hau hbc
        subst hau
        rw [← hbc] at h₂
        have ha1 : a ∈ l₁ := List.singleton_sublist.mp h₁
        rcases List.sublist_cons_iff.mp h₂ with hs | ⟨r, hr, hrs⟩
        · have hb2 : b ∈ l₂ := List.singleton_sublist.mp hs
          have hpair : List.Sublist ([a] ++ [b]) (l₁ ++ l₂) :=
            List.Sublist.append (List.singleton_sublist.mpr ha1)
              (List.singleton_sublist.mpr hb2)
          rw [← he] at hpair
          exact (ih hxs hpair).cons x
        · injection hr with hbx hre
          subst hbx
          exact absurd (hgt a ha1) (by rw [hk]; exact lt_irrefl _)
      | cons v t' =>
        cases t' with
        | nil =>
          cases c₂ with
          | nil =>
            rw [List.append_nil] at hc
            injection hc with hau hc2
            injection hc2 with hbv hnil
            subst hau
            subst hbv
            rw [← hnil] at h₁
            exact (ih hxs (h₁.trans hsub1)).cons x
          | cons w c₂' => simp at hc
        | cons w t'' => simp at hc

/-- C5 (amended): keyword extraction tokenizes the lower-cased content with
`\b[a-zA-Z]{3,}\b` — case-folded alphabetic runs of length at least 3 *not
adjacent to a digit, underscore or letter* (word-boundary condition) — counts
occurrences, and returns at most 10 `(word, count)` pairs sorted by count
descending, ties broken by first-seen order; on the content
`"permit permit zoning zoning zoning building"` the result is exactly
`[("zoning", 3), ("permit", 2), ("building", 1)]`. -/
theorem claim_C5_theorem :
    (∀ content : Str,
       (extractKeywords content).length ≤ 10 ∧
       (extractKeywords content).Pairwise (fun a b => b.2 ≤ a.2) ∧
       (∀ p ∈ extractKeywords content,
          p ∈ wordFreq (findallWordTokens (lowerStr content)) ∧
          p.2 = (findallWordTokens (lowerStr content)).count p.1) ∧
       ((wordFreq (findallWordTokens (lowerStr content))).map Prod.fst =
          firstSeen (findallWordTokens (lowerStr content))) ∧
       (∀ a b : Str × Nat,
          List.Sublist [a, b] (extractKeywords content) → a.2 = b.2 →
          List.Sublist [a, b] (wordFreq (findallWordTokens (lowerStr content))))) ∧
    extractKeywords (str "permit permit zoning zoning zoning building") =
      [(str "zoning", 3), (str "permit", 2), (str "building", 1)] := by
  constructor
  · intro content
    refine ⟨List.length_take_le _ _, ?_, ?_, wordFreq_map_fst _, ?_⟩
    · have hs := pairwise_sortDesc (fun p : Str × Nat => (p.2 : ℚ))
        (wordFreq (findallWordTokens (lowerStr content)))
      have ht := List.Pairwise.sublist (List.take_sublist 10 _) hs
      exact ht.imp (fun hle => Nat.cast_le.mp hle)
    · intro p hp
      have hp' := (List.take_sublist _ _).mem hp
      rw [mem_sortDesc] at hp'
      exact ⟨hp', wordFreq_count hp'⟩
    · intro a b hab hk
      have hab' := hab.trans (List.take_sublist _ _)
      refine sortDesc_stable_pair (fun p : Str × Nat => (p.2 : ℚ)) ?_ hab' ?_
      · exact (wordFreq_keys_nodup _).of_map
      · show ((a.2 : ℚ) = (b.2 : ℚ))
        exact_mod_cast hk
  · have htoks : findallWordTokens
        (lowerStr (str "permit permit zoning zoning zoning building")) =
        [str "permit", str "permit", str "zoning", str "zoning", str "zoning",
         str "building"] := by decide
    have hfreq : wordFreq [str "permit", str "permit", str "zoning", str "zoning",
        str "zoning", str "building"] =
        [(str "permit", 2), (str "zoning", 3), (str "building", 1)] := by decide
    rw [extractKeywords, htoks, hfreq]
    norm_num [sortDesc, insertDesc]

/-- C5 counterexample: on the content `"abc1"` the regex of the code finds no
token at all (the run `abc` is flanked by the digit `1`, so no word boundary
exists there), while the tokenization of the claim — all alphabetic runs of length
at least 3 — yields `abc`. -/
theorem claim_C5_counterexample :
    extractKeywords (str "abc1") = [] ∧
    claimLiteralKeywords (str "abc1") = [(str "abc", 1)] ∧
    extractKeywords (str "abc1") ≠ claimLiteralKeywords (str "abc1") := by
  have h1 : wordFreq (findallWordTokens (lowerStr (str "abc1"))) = [] := by decide
  have h2 : wordFreq ((alphaRuns (lowerStr (str "abc1"))).filter
      (fun r => 3 ≤ r.length)) = [(str "abc", 1)] := by decide
  have e1 : extractKeywords (str "abc1") = [] := by
    rw [extractKeywords, h1]
    rfl
  have e2 : claimLiteralKeywords (str "abc1") = [(str "abc", 1)] := by
    rw [claimLiteralKeywords, h2]
    rfl
  exact ⟨e1, e2, by rw [e1, e2]; simp⟩

theorem tie_extract_eval :
    extractKeywords (str "permit zoning permit zoning") =
      [(str "permit", 2), (str "zoning", 2)] := by
  have htoks : findallWordTokens (lowerStr (str "permit zoning permit zoning")) =
      [str "permit", str "zoning", str "permit", str "zoning"] := by decide
  have hfreq : wordFreq [str "permit", str "zoning", str "permit", str "zoning"] =
      [(str "permit", 2), (str "zoning", 2)] := by decide
  rw [extractKeywords, htoks, hfreq]
  norm_num [sortDesc, insertDesc]

/-- C5 witness: on a content with a count tie, the returned pair order
follows first-seen order, and the count of a returned pair is the token count. -/
theorem claim_C5_witness :
    ((str "permit", 2) ∈
       wordFreq (findallWordTokens (lowerStr (str "permit zoning permit zoning"))) ∧
     (str "permit", (2 : Nat)).2 =
       (findallWordTokens (lowerStr (str "permit zoning permit zoning"))).count
         (str "permit", (2 : Nat)).1) ∧
    List.Sublist [(str "permit", 2), (str "zoning", 2)]
      (wordFreq (findallWordTokens (lowerStr (str "permit zoning permit zoning")))) :=
  ⟨((claim_C5_theorem.1 (str "permit zoning permit zoning")).2.2.1
      (str "permit", 2)
      (by rw [tie_extract_eval]; exact List.mem_cons_self _ _)),
   ((claim_C5_theorem.1 (str "permit zoning permit zoning")).2.2.2.2
      (str "permit", 2) (str "zoning", 2)
      (by rw [tie_extract_eval]) rfl)⟩
